import Mathlib

/-!
Ledger engine of `avito-test-work`: the use case layer over the Postgres repository.

A shallow embedding of

* `internal/entity/account.go`, `internal/entity/transaction.go` (the data model),
* `internal/usecase/error.go`, `internal/usecase/interface.go`,
  `internal/usecase/account.go` (the service, written against the `AccountRepo`
  interface),
* `internal/usecase/repo/account_postgres.go` (the store),

followed by theorems about the service running on the store.

Modelling conventions.

* `int64` identifiers are `Int` (they are only compared, never computed with);
  `uint64` limits and offsets are `Nat`; `time.Time` is a `Nat` instant.
* `float64` is `Float64` below: NaN, the two infinities and the finite values,
  with the comparisons of Go and the addition of IEEE 754 (round to nearest,
  ties to even, overflow to an infinity).  The two zeros are one value.
* Go errors are `GoError`: `errors.New` values and `fmt.Errorf("...: %w", err)`
  wrappers; `errors.Is` walks the chain of wrappers.
* A function `f(args) (T, error)` becomes `Except GoError T`; a method that
  talks to the store also threads the store state.
* The store is sequential and reliable: connection failures, serialization
  conflicts and failing commits are outside the model.  A transaction works on
  a private copy of the tables; `Commit` publishes the copy, `Rollback` drops it.
-/

/-! ## float64 -/

/-- The number of binary digits of `m`, counted with at most `fuel` halvings. -/
def bitsAux : Nat → Nat → Nat
  | 0, _ => 0
  | fuel + 1, m => if m = 0 then 0 else bitsAux fuel (m / 2) + 1

/-- The number of binary digits of `m`: 0 for 0, and `k + 1` when `2^k <= m < 2^(k+1)`. -/
def bits (m : Nat) : Nat := bitsAux m m

/-- Values of Go's `float64`: not-a-number, minus infinity, a finite value, plus infinity.
The finite value `fin m e` is the number `m * 2^e * 2^(-1074)`: every finite float64 is a
whole multiple of `2^(-1074)`, the smallest positive one, so it has this form with `e : Nat`
(1 is `fin 1 1074`, the largest float64 is `fin (2^53 - 1) 2045`). One number has several
such forms; the comparisons below compare the numbers. -/
inductive Float64 where
  | nan : Float64
  | ninf : Float64
  | fin (m : ℤ) (e : ℕ) : Float64
  | pinf : Float64
  deriving DecidableEq

namespace Float64

/-- The float64 that the exact result `n * 2^e * 2^(-1074)` of an operation is rounded to,
as IEEE 754 has it for the default mode: the nearest number with 53 significant binary
digits, the one with the even last digit when two are equally near, and an infinity when
that number is `2^1024` or more. Results of fewer than 54 digits are kept as they are, which
covers the subnormal range. -/
def round (n : ℤ) (e : ℕ) : Float64 :=
  let a := n.natAbs
  let s := bits a - 53
  let q := a / 2 ^ s
  let r := a % 2 ^ s
  let q1 := if 2 ^ s < 2 * r ∨ (2 * r = 2 ^ s ∧ q % 2 = 1) then q + 1 else q
  if q1 ≠ 0 ∧ 2098 < bits q1 + (e + s) then (if n < 0 then ninf else pinf)
  else fin (if n < 0 then -(q1 : ℤ) else q1) (e + s)

/-- Addition `a + b` of Go (and of the store's column arithmetic, taken to be float64
arithmetic too): NaN is absorbing, opposite infinities add up to NaN, and the exact sum of
two finite values is rounded to a float64. -/
def add : Float64 → Float64 → Float64
  | nan, _ => nan
  | _, nan => nan
  | pinf, ninf => nan
  | ninf, pinf => nan
  | pinf, _ => pinf
  | _, pinf => pinf
  | ninf, _ => ninf
  | _, ninf => ninf
  | fin m1 e1, fin m2 e2 =>
    round (m1 * 2 ^ (e1 - min e1 e2) + m2 * 2 ^ (e2 - min e1 e2)) (min e1 e2)

/-- Unary minus `-a` of Go. -/
def neg : Float64 → Float64
  | nan => nan
  | ninf => pinf
  | fin m e => fin (-m) e
  | pinf => ninf

/-- Comparison `a < b` of Go: false as soon as one side is NaN. -/
def lt : Float64 → Float64 → Bool
  | nan, _ => false
  | _, nan => false
  | _, ninf => false
  | ninf, _ => true
  | pinf, _ => false
  | fin _ _, pinf => true
  | fin m1 e1, fin m2 e2 => decide (m1 * 2 ^ (e1 - min e1 e2) < m2 * 2 ^ (e2 - min e1 e2))

/-- Comparison `a == b` of Go: NaN is different from every value, itself included. -/
def eq : Float64 → Float64 → Bool
  | ninf, ninf => true
  | pinf, pinf => true
  | fin m1 e1, fin m2 e2 => decide (m1 * 2 ^ (e1 - min e1 e2) = m2 * 2 ^ (e2 - min e1 e2))
  | _, _ => false

/-- Comparison `a >= b` of Go, that is `b < a || a == b`. -/
def ge (a b : Float64) : Bool := lt b a || eq a b

/-- The float64 of the whole number `k` (exact for `|k| <= 2^53`). -/
def ofInt (k : ℤ) : Float64 := fin k 1074

/-- The constant `0`. -/
def zero : Float64 := ofInt 0

/-- The exact value of a finite float64, as a whole number of units `2^(-1074)`; 0 for NaN
and the infinities. -/
def units : Float64 → ℤ
  | fin m e => m * 2 ^ e
  | _ => 0

/-- Order of the store's `ORDER BY` on a float column: minus infinity, the finite values,
plus infinity, and NaN last. -/
def sqlLe : Float64 → Float64 → Bool
  | _, nan => true
  | nan, _ => false
  | ninf, _ => true
  | _, ninf => false
  | _, pinf => true
  | pinf, _ => false
  | fin m1 e1, fin m2 e2 => decide (m1 * 2 ^ (e1 - min e1 e2) ≤ m2 * 2 ^ (e2 - min e1 e2))

end Float64

/-! ## errors -/

/-- Go error values: `errors.New(msg)`, an error answered by the database server (a
`*pgconn.PgError`, which no `errors.New` value is equal to), and
`fmt.Errorf(ctx + ": %w", err)`. -/
inductive GoError where
  | new (msg : String) : GoError
  | pg (msg : String) : GoError
  | wrap (ctx : String) (err : GoError) : GoError
  deriving DecidableEq

namespace GoError

/-- The method `Error()`: the message of the error. -/
def Error : GoError → String
  | new msg => msg
  | pg msg => msg
  | wrap ctx err => ctx ++ ": " ++ err.Error

/-- The function `errors.Unwrap`. -/
def Unwrap : GoError → Option GoError
  | new _ => none
  | pg _ => none
  | wrap _ err => some err

/-- The function `errors.Is err target`: some error of the chain is `target`. -/
def Is : GoError → GoError → Bool
  | new msg, target => decide (new msg = target)
  | pg msg, target => decide (pg msg = target)
  | wrap ctx err, target => decide (wrap ctx err = target) || err.Is target

end GoError

/-- Sentinel of `internal/usecase/error.go`. -/
def ErrorAmountIsNegative : GoError := .new "amount is negative"

/-- Sentinel of `internal/usecase/error.go`. -/
def ErrorAmountIsZero : GoError := .new "amount is zero"

/-- Sentinel of `internal/usecase/error.go`. -/
def ErrorIdIsNegative : GoError := .new "ID is negative"

/-- Sentinel of `internal/usecase/error.go`. -/
def ErrorIdIsZero : GoError := .new "ID is zero"

/-- Sentinel of `internal/usecase/error.go`. -/
def ErrorSameRedeemAccrId : GoError := .new "redeem and accrual ID are the same"

/-- Modelled from the spec: the sentinel `ErrNotEnoughMoney` of package `repo`, whose
declaration is not among the sources; its message is the one the integration test reads. -/
def ErrNotEnoughMoney : GoError := .new "not enough money"

/-- The sentinel `pgx.ErrNoRows`, returned by `Scan` on an empty result. -/
def ErrNoRows : GoError := .new "no rows in result set"

/-! ## entities -/

/-- The struct `entity.Account`, also a row of table `account`. -/
structure Account where
  Id : Int
  Balance : Float64
  CreatedDt : Nat
  deriving DecidableEq

/-- The struct `entity.Transaction`, also a row of table `fct_transcation`. -/
structure Transaction where
  Id : Int
  TransDt : Nat
  AccountId : Int
  DocNum : Int
  Type_ : String
  Amount : Float64
  deriving DecidableEq

/-! ## the store: `internal/usecase/repo/account_postgres.go` -/

/-- The database behind `postgres.Postgres`: the rows of the two tables, in insertion order,
the instant the store's clock shows (the value of a `DEFAULT` timestamp), and what the server
makes of an `ORDER BY` text that is not the plain name of a column of the ledger: the order
it puts on two ledger rows, or the message of the error it answers with. The grammar of SQL
is not modelled, so this reading is left open: the theorems hold for every server. -/
structure Postgres where
  account : List Account
  fct_transcation : List Transaction
  now : Nat
  orderByOther : String → Except String (Transaction → Transaction → Bool)

/-- Modelled from the spec: the `DEFAULT` of an `id` column (the migrations are not among
the sources). Identifiers are store-assigned, positive, unique and increasing: the next one
is one more than the largest identifier of the table, and 1 in an empty table. -/
def defaultId (ids : List Int) : Int := ids.foldl max 0 + 1

/-- Modelled from the spec: the `DEFAULT` of column `account.balance` (the migrations are not
among the sources). An account is created with balance 0. -/
def defaultBalance : Float64 := Float64.zero

/-- A `pgx.Tx`: the private copy of the tables that the statements of the transaction read
and write. -/
structure Tx where
  work : Postgres

/-- The call `r.Pool.BeginTx`: the transaction starts from the committed tables. -/
def Postgres.BeginTx (pg : Postgres) : Tx := { work := pg }

/-- The call `tx.Commit`: the private copy becomes the committed tables. -/
def Tx.Commit (tx : Tx) (_pg : Postgres) : Postgres := tx.work

/-- The deferred `tx.Rollback` of a transaction that was not committed: the private copy is
dropped and the committed tables stay as they were. -/
def Tx.Rollback (_tx : Tx) (pg : Postgres) : Postgres := pg

/-- The sentinel `pgx.ErrTxCommitRollback`. -/
def ErrTxCommitRollback : GoError := .new "commit unexpectedly resulted in rollback"

namespace repo

/-- The function `selectTransactionType`. -/
def selectTransactionType (amount : Float64) : Except GoError String :=
  if Float64.lt Float64.zero amount then .ok "accrual"
  else if Float64.lt amount Float64.zero then .ok "redeem"
  else .error (.new "amount in transaction is zero")

/-- The statement `SELECT ... FROM account WHERE id = $1` followed by `QueryRow(...).Scan`:
the first row with that identifier, if any. -/
def selectAccount (rows : List Account) (id : Int) : Option Account :=
  rows.find? (fun a => decide (a.Id = id))

/-- The statement `UPDATE account SET balance = balance + $2 WHERE id = $1`: every row with
that identifier gets the amount added to its balance. -/
def updateBalance (rows : List Account) (id : Int) (amount : Float64) : List Account :=
  rows.map (fun a => if a.Id = id then { a with Balance := Float64.add a.Balance amount } else a)

/-- The statement `INSERT INTO fct_transcation VALUES (DEFAULT, DEFAULT, $1, $2, $3, $4)`. -/
def insertTransaction (pg : Postgres) (id docNum : Int) (transType : String)
    (amount : Float64) : Postgres :=
  { pg with
    fct_transcation := pg.fct_transcation ++
      [{ Id := defaultId (pg.fct_transcation.map Transaction.Id)
         TransDt := pg.now
         AccountId := id
         DocNum := docNum
         Type_ := transType
         Amount := amount }] }

namespace AccountRepo

/-- The method `AccountRepo.Create`: one row with the defaults of every column, returned. -/
def Create (pg : Postgres) : Except GoError Account × Postgres :=
  let acc : Account :=
    { Id := defaultId (pg.account.map Account.Id), Balance := defaultBalance, CreatedDt := pg.now }
  (.ok acc, { pg with account := pg.account ++ [acc] })

/-- The method `AccountRepo.GetById`. -/
def GetById (pg : Postgres) (id : Int) : Except GoError Account × Postgres :=
  match selectAccount pg.account id with
  | none => (.error (.wrap "AccountRepo - GetByID - r.Pool.QueryRow" ErrNoRows), pg)
  | some acc => (.ok acc, pg)

/-- The helper `AccountRepo.updBalance`, run inside the transaction `tx`: read the balance,
refuse a negative result, update the balance and insert the ledger row. -/
def updBalance (tx : Tx) (transType : String) (id docNum : Int) (amount : Float64) :
    Except GoError Account × Tx :=
  match selectAccount tx.work.account id with
  | none => (.error (.wrap "AccountRepo - updBalance - tx.QueryRow" ErrNoRows), tx)
  | some row =>
    if Float64.lt (Float64.add row.Balance amount) Float64.zero then
      (.error (.wrap "AccountRepo - updBalance - tx.QueryRow" ErrNotEnoughMoney), tx)
    else
      let tx1 : Tx := { work := { tx.work with account := updateBalance tx.work.account id amount } }
      match selectAccount tx1.work.account id with
      | none => (.error (.wrap "AccountRepo - updBalance - tx.QueryRow" ErrNoRows), tx1)
      | some acc => (.ok acc, { work := insertTransaction tx1.work id docNum transType amount })

/-- The method `AccountRepo.UpdBalance`. -/
def UpdBalance (pg : Postgres) (id docNum : Int) (amount : Float64) :
    Except GoError Account × Postgres :=
  match selectTransactionType amount with
  | .error err => (.error (.wrap "AccountRepo - UpdBalance - selectTransactionType" err), pg)
  | .ok transType =>
    let tx := pg.BeginTx
    match updBalance tx transType id docNum amount with
    | (.error err, tx1) =>
      if err.Is ErrTxCommitRollback then
        (.error (.wrap "AccountRepo - UpdBalance - r.updBalance TRUXAuxa" err), tx1.Rollback pg)
      else
        (.error (.wrap "AccountRepo - UpdBalance - r.updBalance" err), tx1.Rollback pg)
    | (.ok acc, tx1) => (.ok acc, tx1.Commit pg)

/-- The method `AccountRepo.TransferAmount`; the result is the pair
`(accrAcc, redeemAcc)`. -/
def TransferAmount (pg : Postgres) (redeemId accrId : Int) (amount : Float64) :
    Except GoError (Account × Account) × Postgres :=
  let tx := pg.BeginTx
  match updBalance tx "redeem" redeemId accrId (Float64.neg amount) with
  | (.error err, tx1) =>
    (.error (.wrap "AccountRepo - TransferAmount - r.updBalance" err), tx1.Rollback pg)
  | (.ok redeemAcc, tx1) =>
    match updBalance tx1 "accrual" accrId redeemId amount with
    | (.error err, tx2) =>
      (.error (.wrap "AccountRepo - TransferAmount - r.updBalance" err), tx2.Rollback pg)
    | (.ok accrAcc, tx2) => (.ok (accrAcc, redeemAcc), tx2.Commit pg)

end AccountRepo

end repo

/-- Order of two texts by code point, the first difference deciding. -/
def textLe : List Char → List Char → Bool
  | [], _ => true
  | _ :: _, [] => false
  | a :: as, b :: bs => if a.toNat < b.toNat then true else if b.toNat < a.toNat then false
    else textLe as bs

namespace repo

/-- The order `ORDER BY <sort>` puts on the rows of `fct_transcation` when `sort` is the
plain name of one of its columns `id, trans_dt, account_id, doc_num, type, amount`; `none`
for every other text, whose reading is the server's (`Postgres.orderByOther`). -/
def orderBy (sort : String) : Option (Transaction → Transaction → Bool) :=
  if sort = "id" then some (fun a b => decide (a.Id ≤ b.Id))
  else if sort = "trans_dt" then some (fun a b => decide (a.TransDt ≤ b.TransDt))
  else if sort = "account_id" then some (fun a b => decide (a.AccountId ≤ b.AccountId))
  else if sort = "doc_num" then some (fun a b => decide (a.DocNum ≤ b.DocNum))
  else if sort = "type" then some (fun a b => textLe a.Type_.data b.Type_.data)
  else if sort = "amount" then some (fun a b => Float64.sqlLe a.Amount b.Amount)
  else none

/-- The text `pred` that `GetHistory` formats for the `ORDER BY` clause. -/
def orderByPred (sort : String) (isDecreasing : Bool) : String :=
  if isDecreasing then sort ++ " DESC" else sort ++ " ASC"

/-- The server answers the query with an error, because it refuses the `ORDER BY` text. -/
def orderByRefused (pg : Postgres) (sort : String) (isDecreasing : Bool) : Bool :=
  match orderBy sort with
  | some _ => false
  | none =>
    match pg.orderByOther (orderByPred sort isDecreasing) with
    | .error _ => true
    | .ok _ => false

/-- The method `AccountRepo.GetHistory`: the rows of the account, ordered as the `ORDER BY`
text says, without the first `offset` rows and cut after `limit` rows. For the plain name of
a column the order is the one of the column, ascending or descending (rows that compare
equal stay in insertion order); for any other text it is what the server makes of the text,
an order or an error. -/
def AccountRepo.GetHistory (pg : Postgres) (id : Int) (limit offset : Nat) (sort : String)
    (isDecreasing : Bool) : Except GoError (List Transaction) × Postgres :=
  match orderBy sort with
  | none =>
    match pg.orderByOther (orderByPred sort isDecreasing) with
    | .error msg =>
      (.error (.wrap "AccountRepo - GetHistory - pgxscan.Select" (.pg msg)), pg)
    | .ok le =>
      let rows := pg.fct_transcation.filter (fun t => decide (t.AccountId = id))
      (.ok (((rows.insertionSort (fun a b => le a b = true)).drop offset).take limit), pg)
  | some le =>
    let rows := pg.fct_transcation.filter (fun t => decide (t.AccountId = id))
    let sorted :=
      if isDecreasing then rows.insertionSort (fun a b => le b a = true)
      else rows.insertionSort (fun a b => le a b = true)
    (.ok ((sorted.drop offset).take limit), pg)

end repo

/-! ## the service: `internal/usecase` -/

/-- The function `strings.ToLower`, on the letters `A` to `Z`; no other character is
lower-cased to a letter of the word `true`, the only text the result is compared with. -/
def strings.ToLower (s : String) : String := String.mk (s.data.map Char.toLower)

namespace usecase

/-- The interface `AccountRepo` of `internal/usecase/interface.go`, over a store whose
state is a `σ`. -/
structure AccountRepo (σ : Type) where
  Create : σ → Except GoError Account × σ
  GetById : σ → Int → Except GoError Account × σ
  UpdBalance : σ → Int → Int → Float64 → Except GoError Account × σ
  TransferAmount : σ → Int → Int → Float64 → Except GoError (Account × Account) × σ
  GetHistory : σ → Int → Nat → Nat → String → Bool → Except GoError (List Transaction) × σ

/-- The struct `AccountUseCase`. -/
structure AccountUseCase (σ : Type) where
  repo : AccountRepo σ

/-- The constructor `usecase.New`. -/
def New {σ : Type} (r : AccountRepo σ) : AccountUseCase σ := { repo := r }

namespace AccountUseCase

/-- The method `amountValidation`; `none` is the `nil` error. -/
def amountValidation (amount : Float64) : Option GoError :=
  if Float64.lt amount Float64.zero then some ErrorAmountIsNegative
  else if Float64.eq amount Float64.zero then some ErrorAmountIsZero
  else none

/-- The method `idValidation`; `none` is the `nil` error. -/
def idValidation (id : Int) : Option GoError :=
  if id < 0 then some ErrorIdIsNegative
  else if id = 0 then some ErrorIdIsZero
  else none

variable {σ : Type}

/-- The method `AccountUseCase.Create`. -/
def Create (uc : AccountUseCase σ) (s : σ) : Except GoError Account × σ :=
  match uc.repo.Create s with
  | (.error err, s1) => (.error (.wrap "AccountUseCase - Create - uc.repo.Create" err), s1)
  | (.ok acc, s1) => (.ok acc, s1)

/-- The method `AccountUseCase.GetById`. -/
def GetById (uc : AccountUseCase σ) (s : σ) (id : Int) : Except GoError Account × σ :=
  match idValidation id with
  | some err => (.error (.wrap "AccountUseCase - GetById - uc.idValidation" err), s)
  | none =>
    match uc.repo.GetById s id with
    | (.error err, s1) => (.error (.wrap "AccountUseCase - GetById - uc.repo.GetById" err), s1)
    | (.ok acc, s1) => (.ok acc, s1)

/-- The method `AccountUseCase.UpdBalance`. -/
def UpdBalance (uc : AccountUseCase σ) (s : σ) (id : Int) (amount : Float64) :
    Except GoError Account × σ :=
  match idValidation id with
  | some err => (.error (.wrap "AccountUseCase - UpdBalance - uc.idValidation" err), s)
  | none =>
    if Float64.eq amount Float64.zero then
      (.error (.wrap "AccountUseCase - UpdBalance - uc.idValidation" ErrorAmountIsZero), s)
    else
      match uc.repo.UpdBalance s id (-999) amount with
      | (.error err, s1) =>
        (.error (.wrap "AccountUseCase - UpdBalance - uc.repo.UpdBalance" err), s1)
      | (.ok acc, s1) => (.ok acc, s1)

/-- The method `AccountUseCase.TransferAmount`; the result is the pair
`(accrAcc, redeemAcc)`. -/
def TransferAmount (uc : AccountUseCase σ) (s : σ) (redeemId accrId : Int) (amount : Float64) :
    Except GoError (Account × Account) × σ :=
  if accrId = redeemId then
    (.error (.wrap "AccountUseCase - TransferAmount - validation" ErrorSameRedeemAccrId), s)
  else
    match amountValidation amount with
    | some err =>
      (.error (.wrap "AccountUseCase - TransferAmount - uc.amountValidation" err), s)
    | none =>
      match idValidation redeemId with
      | some err =>
        (.error (.wrap "AccountUseCase - TransferAmount - uc.idValidation" err), s)
      | none =>
        match idValidation accrId with
        | some err =>
          (.error (.wrap "AccountUseCase - TransferAmount - uc.idValidation" err), s)
        | none =>
          match uc.repo.TransferAmount s redeemId accrId amount with
          | (.error err, s1) =>
            (.error (.wrap "AccountUseCase - TransferAmount - uc.repo.TransferAmount" err), s1)
          | (.ok accs, s1) => (.ok accs, s1)

/-- The method `AccountUseCase.GetHistory`. -/
def GetHistory (uc : AccountUseCase σ) (s : σ) (id : Int) (limit offset : Nat)
    (sort isDecreasingValue : String) : Except GoError (List Transaction) × σ :=
  match idValidation id with
  | some err => (.error (.wrap "AccountUseCase - GetHistory - uc.idValidation" err), s)
  | none =>
    let sort1 := if sort = "" then "trans_dt" else sort
    let isDecreasing := decide (strings.ToLower isDecreasingValue = "true")
    match uc.repo.GetHistory s id limit offset sort1 isDecreasing with
    | (.error err, s1) =>
      (.error (.wrap "AccountUseCase - GetHistory - uc.repo.GetHistory" err), s1)
    | (.ok trns, s1) => (.ok trns, s1)

end AccountUseCase

end usecase

/-- The repository of `internal/usecase/repo` as an implementation of the interface, as
`app.Run` wires it. -/
def postgresRepo : usecase.AccountRepo Postgres where
  Create := repo.AccountRepo.Create
  GetById := repo.AccountRepo.GetById
  UpdBalance := repo.AccountRepo.UpdBalance
  TransferAmount := repo.AccountRepo.TransferAmount
  GetHistory := repo.AccountRepo.GetHistory

/-- The service of the running application: the use case over the Postgres repository. -/
def service : usecase.AccountUseCase Postgres := usecase.New postgresRepo

/-! ## vocabulary of the statements -/

/-- The result is an error whose chain contains `target`, as `errors.Is` tests it. -/
def failsWith {α : Type} (r : Except GoError α) (target : GoError) : Bool :=
  match r with
  | .error err => err.Is target
  | .ok _ => false

/-- The result of a call with its error, if any, wrapped as `fmt.Errorf(ctx + ": %w", err)`
wraps it. -/
def wrapError {α σ : Type} (ctx : String) : Except GoError α × σ → Except GoError α × σ
  | (.error err, s1) => (.error (.wrap ctx err), s1)
  | (.ok v, s1) => (.ok v, s1)

/-- A call of a method of the interface `AccountRepo`, with its arguments. -/
inductive Call where
  | Create : Call
  | GetById (id : Int) : Call
  | UpdBalance (id docNum : Int) (amount : Float64) : Call
  | TransferAmount (redeemId accrId : Int) (amount : Float64) : Call
  | GetHistory (id : Int) (limit offset : Nat) (sort : String) (isDecreasing : Bool) : Call
  deriving DecidableEq

/-- A repository that writes every call it receives to a log and hands it to `r`, in the
manner of the `MockAccountRepo` of the unit tests. -/
def recording {σ : Type} (r : usecase.AccountRepo σ) : usecase.AccountRepo (List Call × σ) where
  Create := fun s =>
    ((r.Create s.2).1, (s.1 ++ [Call.Create], (r.Create s.2).2))
  GetById := fun s id =>
    ((r.GetById s.2 id).1, (s.1 ++ [Call.GetById id], (r.GetById s.2 id).2))
  UpdBalance := fun s id docNum amount =>
    ((r.UpdBalance s.2 id docNum amount).1,
      (s.1 ++ [Call.UpdBalance id docNum amount], (r.UpdBalance s.2 id docNum amount).2))
  TransferAmount := fun s redeemId accrId amount =>
    ((r.TransferAmount s.2 redeemId accrId amount).1,
      (s.1 ++ [Call.TransferAmount redeemId accrId amount],
        (r.TransferAmount s.2 redeemId accrId amount).2))
  GetHistory := fun s id limit offset sort isDecreasing =>
    ((r.GetHistory s.2 id limit offset sort isDecreasing).1,
      (s.1 ++ [Call.GetHistory id limit offset sort isDecreasing],
        (r.GetHistory s.2 id limit offset sort isDecreasing).2))

/-- The data model's invariant on balances: every account has a balance `>= 0`. -/
def NonNegative (pg : Postgres) : Prop :=
  ∀ a ∈ pg.account, Float64.ge a.Balance Float64.zero = true

/-- The primary key of table `account`: no two rows have the same identifier. -/
def UniqueIds (pg : Postgres) : Prop := (pg.account.map Account.Id).Nodup

/-- The total of all balances, added up in row order. -/
def totalBalance (pg : Postgres) : Float64 :=
  (pg.account.map Account.Balance).foldr Float64.add Float64.zero

/-- The total of all balances as an exact number, in units of `2^-1074`, with no rounding
(a balance that is NaN or an infinity counts as 0). -/
def exactTotal (pg : Postgres) : ℤ :=
  (pg.account.map (fun a => Float64.units a.Balance)).sum

/-- The reading of a server that is asked for plain column names only: it answers every
other `ORDER BY` text with an error. The one such text the sample stores are asked with is
`no_such_column ASC`, which the server does refuse, the ledger having no such column. -/
def plainColumnsOnly : String → Except String (Transaction → Transaction → Bool) :=
  fun _ => .error "column does not exist"

/-- A store with account 1 (balance 30) and account 2 (balance 4) and an empty ledger. -/
def pgTwo : Postgres :=
  { account := [{ Id := 1, Balance := .ofInt 30, CreatedDt := 7 },
                { Id := 2, Balance := .ofInt 4, CreatedDt := 8 }]
    fct_transcation := []
    now := 9
    orderByOther := plainColumnsOnly }

/-- A store with three accounts of balance 0 and an empty ledger. -/
def pgZero : Postgres :=
  { account := [{ Id := 1, Balance := .ofInt 0, CreatedDt := 1 },
                { Id := 2, Balance := .ofInt 0, CreatedDt := 2 },
                { Id := 3, Balance := .ofInt 0, CreatedDt := 3 }]
    fct_transcation := []
    now := 4
    orderByOther := plainColumnsOnly }

/-- A store with account 1 (balance 3) and account 2 (balance `2^53`) and an empty ledger. -/
def pgLarge : Postgres :=
  { account := [{ Id := 1, Balance := .ofInt 3, CreatedDt := 1 },
                { Id := 2, Balance := .ofInt 9007199254740992, CreatedDt := 2 }]
    fct_transcation := []
    now := 3
    orderByOther := plainColumnsOnly }

/-- The result is a value and not an error. -/
def isOk {α : Type} (r : Except GoError α) : Bool :=
  match r with
  | .ok _ => true
  | .error _ => false

/-- The result is an error of the service's own validation: its chain contains one of the
five sentinels of `internal/usecase/error.go`. -/
def validationFailure {α : Type} (r : Except GoError α) : Bool :=
  failsWith r ErrorIdIsNegative || failsWith r ErrorIdIsZero ||
    failsWith r ErrorAmountIsNegative || failsWith r ErrorAmountIsZero ||
    failsWith r ErrorSameRedeemAccrId

/-- The foreign key of `fct_transcation.account_id`: every ledger row is owned by an account
of table `account`. -/
def ForeignKey (pg : Postgres) : Prop :=
  ∀ t ∈ pg.fct_transcation, ∃ a ∈ pg.account, a.Id = t.AccountId

/-- The rows of the ledger that `id` owns, in insertion order. -/
def ownedBy (pg : Postgres) (id : Int) : List Transaction :=
  pg.fct_transcation.filter (fun t => decide (t.AccountId = id))

/-- A store in the state the integration tests reach: accounts 1 and 2 after the
adjustments +35, +5, -5 and the transfer of 1 from account 2 to account 1. -/
def pgHist : Postgres :=
  { account := [{ Id := 1, Balance := .ofInt 31, CreatedDt := 7 },
                { Id := 2, Balance := .ofInt 4, CreatedDt := 8 }]
    fct_transcation :=
      [{ Id := 1, TransDt := 10, AccountId := 1, DocNum := -999, Type_ := "accrual",
         Amount := .ofInt 35 },
       { Id := 2, TransDt := 11, AccountId := 2, DocNum := -999, Type_ := "accrual",
         Amount := .ofInt 5 },
       { Id := 3, TransDt := 12, AccountId := 1, DocNum := -999, Type_ := "redeem",
         Amount := .ofInt (-5) },
       { Id := 4, TransDt := 13, AccountId := 2, DocNum := 1, Type_ := "redeem",
         Amount := .ofInt (-1) },
       { Id := 5, TransDt := 13, AccountId := 1, DocNum := 2, Type_ := "accrual",
         Amount := .ofInt 1 }]
    now := 14
    orderByOther := plainColumnsOnly }

/-- Modelled from the spec: the allow-list of sort columns of the history (timestamp, amount,
kind), by the names of the columns of `fct_transcation`. The sources hold no such list. -/
def sortAllowList : List String := ["trans_dt", "amount", "type"]

/-! ## theorems -/

/-! ### float64 -/

theorem bitsAux_pow_le (fuel m : Nat) (h1 : m ≤ fuel) (h2 : 0 < m) :
    2 ^ (bitsAux fuel m - 1) ≤ m := by
  induction fuel generalizing m with
  | zero => omega
  | succ fuel ih =>
    have hm : m ≠ 0 := by omega
    simp only [bitsAux, hm, if_false, Nat.add_sub_cancel]
    by_cases h3 : m / 2 = 0
    · have : bitsAux fuel (m / 2) = 0 := by
        rw [h3]
        cases fuel <;> simp [bitsAux]
      rw [this]
      simpa using h2
    · have h4 : 0 < m / 2 := Nat.pos_of_ne_zero h3
      have h5 : m / 2 ≤ fuel := by omega
      have ih' := ih (m / 2) h5 h4
      have h6 : 1 ≤ bitsAux fuel (m / 2) := by
        cases fuel with
        | zero => omega
        | succ f => simp [bitsAux, h3]
      have h7 : 2 ^ bitsAux fuel (m / 2) = 2 * 2 ^ (bitsAux fuel (m / 2) - 1) := by
        rw [← pow_succ']
        congr 1
        omega
      rw [h7]
      omega

theorem pow_bits_sub_le (a : Nat) (h : 0 < a) : 2 ^ (bits a - 53) ≤ a := by
  have h1 := bitsAux_pow_le a a (le_refl a) h
  have h2 : 2 ^ (bits a - 53) ≤ 2 ^ (bitsAux a a - 1) := by
    apply Nat.pow_le_pow_right (by decide)
    unfold bits
    omega
  exact le_trans h2 h1

theorem Float64.lt_fin_zero (m : ℤ) (e : ℕ) :
    Float64.lt (.fin m e) Float64.zero = decide (m < 0) := by
  have h : (0 : ℤ) < 2 ^ (e - min e 1074) := by positivity
  simp only [Float64.lt, Float64.zero, Float64.ofInt, zero_mul]
  congr 1
  apply propext
  constructor
  · intro h1
    by_contra h2
    have : 0 ≤ m * 2 ^ (e - min e 1074) := mul_nonneg (not_lt.mp h2) h.le
    omega
  · intro h1
    exact mul_neg_of_neg_of_pos h1 h

theorem Float64.lt_zero_fin (m : ℤ) (e : ℕ) :
    Float64.lt Float64.zero (.fin m e) = decide (0 < m) := by
  have h : (0 : ℤ) < 2 ^ (e - min 1074 e) := by positivity
  simp only [Float64.lt, Float64.zero, Float64.ofInt, zero_mul]
  congr 1
  apply propext
  constructor
  · intro h1
    by_contra h2
    have : m * 2 ^ (e - min 1074 e) ≤ 0 := mul_nonpos_of_nonpos_of_nonneg (not_lt.mp h2) h.le
    omega
  · intro h1
    exact mul_pos h1 h

theorem Float64.eq_fin_zero (m : ℤ) (e : ℕ) :
    Float64.eq (.fin m e) Float64.zero = decide (m = 0) := by
  have h : (2 : ℤ) ^ (e - min e 1074) ≠ 0 := by positivity
  simp [Float64.eq, Float64.zero, Float64.ofInt, h]


theorem Float64.round_cases (n : ℤ) (e : ℕ) :
    (n < 0 ∧ (Float64.round n e = .ninf ∨ ∃ k : ℕ, ∃ e1 : ℕ, 0 < k ∧
        Float64.round n e = .fin (-(k : ℤ)) e1))
      ∨ (n = 0 ∧ ∃ e1 : ℕ, Float64.round n e = .fin 0 e1)
      ∨ (0 < n ∧ (Float64.round n e = .pinf ∨ ∃ k : ℕ, ∃ e1 : ℕ, 0 < k ∧
        Float64.round n e = .fin (k : ℤ) e1)) := by
  rcases lt_trichotomy n 0 with h | h | h
  · left
    refine ⟨h, ?_⟩
    have ha : 0 < n.natAbs := Int.natAbs_pos.mpr h.ne
    have hq : 0 < n.natAbs / 2 ^ (bits n.natAbs - 53) :=
      Nat.div_pos (pow_bits_sub_le _ ha) (by positivity)
    simp only [Float64.round, h, if_true]
    split_ifs
    · left; rfl
    · right; exact ⟨_, _, Nat.succ_pos _, rfl⟩
    · left; rfl
    · right; exact ⟨_, _, hq, rfl⟩
  · right; left
    subst h
    exact ⟨rfl, e, by simp [Float64.round, bits, bitsAux]⟩
  · right; right
    refine ⟨h, ?_⟩
    have hn : ¬ n < 0 := not_lt.mpr h.le
    have ha : 0 < n.natAbs := Int.natAbs_pos.mpr h.ne'
    have hq : 0 < n.natAbs / 2 ^ (bits n.natAbs - 53) :=
      Nat.div_pos (pow_bits_sub_le _ ha) (by positivity)
    simp only [Float64.round, hn, if_false]
    split_ifs
    · left; rfl
    · right; exact ⟨_, _, Nat.succ_pos _, rfl⟩
    · left; rfl
    · right; exact ⟨_, _, hq, rfl⟩

theorem Float64.lt_round_zero (n : ℤ) (e : ℕ) :
    Float64.lt (Float64.round n e) Float64.zero = decide (n < 0) := by
  rcases Float64.round_cases n e with ⟨h, h1 | ⟨k, e1, hk, h1⟩⟩ | ⟨h, e1, h1⟩ |
      ⟨h, h1 | ⟨k, e1, hk, h1⟩⟩
  · rw [h1]; simp [Float64.lt, Float64.zero, Float64.ofInt, h]
  · rw [h1, Float64.lt_fin_zero]; simp [h]; omega
  · rw [h1, Float64.lt_fin_zero]; simp [h]
  · rw [h1]; simp [Float64.lt, Float64.zero, Float64.ofInt, not_lt.mpr h.le]
  · rw [h1, Float64.lt_fin_zero]; simp [not_lt.mpr h.le]

theorem Float64.lt_zero_round (n : ℤ) (e : ℕ) :
    Float64.lt Float64.zero (Float64.round n e) = decide (0 < n) := by
  rcases Float64.round_cases n e with ⟨h, h1 | ⟨k, e1, hk, h1⟩⟩ | ⟨h, e1, h1⟩ |
      ⟨h, h1 | ⟨k, e1, hk, h1⟩⟩
  · rw [h1]; simp [Float64.lt, Float64.zero, Float64.ofInt, not_lt.mpr h.le]
  · rw [h1, Float64.lt_zero_fin]; simp [not_lt.mpr h.le]
  · rw [h1, Float64.lt_zero_fin]; simp [h]
  · rw [h1]; simp [Float64.lt, Float64.zero, Float64.ofInt, h]
  · rw [h1, Float64.lt_zero_fin]; simp [h]; omega

theorem Float64.eq_round_zero (n : ℤ) (e : ℕ) :
    Float64.eq (Float64.round n e) Float64.zero = decide (n = 0) := by
  rcases Float64.round_cases n e with ⟨h, h1 | ⟨k, e1, hk, h1⟩⟩ | ⟨h, e1, h1⟩ |
      ⟨h, h1 | ⟨k, e1, hk, h1⟩⟩
  · rw [h1]; simp [Float64.eq, Float64.zero, Float64.ofInt, h.ne]
  · rw [h1, Float64.eq_fin_zero]; simp [h.ne]; omega
  · rw [h1, Float64.eq_fin_zero]; simp [h]
  · rw [h1]; simp [Float64.eq, Float64.zero, Float64.ofInt, h.ne']
  · rw [h1, Float64.eq_fin_zero]; simp [h.ne']; omega

/-- The addition rounds as float64 does. `0.1 + 0.2` is `0.30000000000000004`, the float64
next above `0.3`; `2^53 + 1` is `2^53`; the largest float64 added to itself is plus
infinity; and small whole numbers add up exactly. -/
theorem Float64.add_examples :
    Float64.add (.fin 3602879701896397 1019) (.fin 3602879701896397 1020) =
        .fin 5404319552844596 1020
      ∧ Float64.eq (.fin 5404319552844596 1020) (.fin 5404319552844595 1020) = false
      ∧ Float64.add (.ofInt 9007199254740992) (.ofInt 1) = .fin 4503599627370496 1075
      ∧ Float64.eq (.fin 4503599627370496 1075) (.ofInt 9007199254740992) = true
      ∧ Float64.add (.fin 9007199254740991 2045) (.fin 9007199254740991 2045) = .pinf
      ∧ Float64.add (.ofInt 30) (.ofInt (-5)) = .ofInt 25 := by
  decide


/-- C7. `TransferAmount(A, A, amount)` fails with the wrapped `ErrorSameRedeemAccrId` for
every identifier `A` and every amount, over every repository and every store state, and
returns the state it was given: the same-account check comes before the checks of the
amount and of the identifiers, and before any call of the repository. -/
theorem transfer_same_account {σ : Type} (uc : usecase.AccountUseCase σ) (s : σ) (A : Int)
    (amount : Float64) :
    uc.TransferAmount s A A amount =
        (.error (.wrap "AccountUseCase - TransferAmount - validation" ErrorSameRedeemAccrId), s)
      ∧ failsWith (uc.TransferAmount s A A amount).1 ErrorSameRedeemAccrId = true
      ∧ failsWith (uc.TransferAmount s A A amount).1 ErrorAmountIsZero = false
      ∧ failsWith (uc.TransferAmount s A A amount).1 ErrorAmountIsNegative = false
      ∧ failsWith (uc.TransferAmount s A A amount).1 ErrorIdIsZero = false
      ∧ failsWith (uc.TransferAmount s A A amount).1 ErrorIdIsNegative = false
      ∧ ((usecase.New (recording uc.repo)).TransferAmount ([], s) A A amount).2 = ([], s) := by
  have h : uc.TransferAmount s A A amount =
      (.error (.wrap "AccountUseCase - TransferAmount - validation" ErrorSameRedeemAccrId), s) := by
    simp [usecase.AccountUseCase.TransferAmount]
  refine ⟨h, ?_, ?_, ?_, ?_, ?_, ?_⟩
  · rw [h]; rfl
  · rw [h]; rfl
  · rw [h]; rfl
  · rw [h]; rfl
  · rw [h]; rfl
  · simp [usecase.AccountUseCase.TransferAmount]

/-! ### supporting lemmas -/

theorem GoError.Is_wrap_new (ctx : String) (err : GoError) (msg : String) :
    (GoError.wrap ctx err).Is (GoError.new msg) = err.Is (GoError.new msg) := by
  simp [GoError.Is]

theorem GoError.Is_new_new (m msg : String) :
    (GoError.new m).Is (GoError.new msg) = decide (m = msg) := by
  simp [GoError.Is]

theorem amountValidation_of_pos (amount : Float64)
    (h : Float64.lt Float64.zero amount = true) :
    usecase.AccountUseCase.amountValidation amount = none := by
  cases amount with
  | nan => simp [Float64.lt, Float64.zero, Float64.ofInt] at h
  | ninf => simp [Float64.lt, Float64.zero, Float64.ofInt] at h
  | pinf => simp [usecase.AccountUseCase.amountValidation, Float64.lt, Float64.eq, Float64.zero, Float64.ofInt]
  | fin m e =>
    rw [Float64.lt_zero_fin] at h
    have hq : 0 < m := by simpa using h
    simp [usecase.AccountUseCase.amountValidation, Float64.lt_fin_zero, Float64.eq_fin_zero,
      not_lt.mpr hq.le, hq.ne']

theorem idValidation_of_neg (id : Int) (h : id < 0) :
    usecase.AccountUseCase.idValidation id = some ErrorIdIsNegative := by
  simp [usecase.AccountUseCase.idValidation, h]

theorem idValidation_zero : usecase.AccountUseCase.idValidation 0 = some ErrorIdIsZero := by
  simp [usecase.AccountUseCase.idValidation]

theorem idValidation_of_pos (id : Int) (h : 0 < id) :
    usecase.AccountUseCase.idValidation id = none := by
  simp [usecase.AccountUseCase.idValidation, not_lt.mpr h.le, h.ne']

/-- C9. For distinct identifiers and an amount `> 0`, over every repository and store
state: a negative redeem identifier fails with the wrapped `ErrorIdIsNegative`, a zero one
with the wrapped `ErrorIdIsZero`; with a valid redeem identifier the accrual identifier is
judged the same way; in all four cases the state is returned as given and the recording
repository logs no call. With both identifiers `> 0` the result is the one of the
repository's `TransferAmount` on exactly `(redeemId, accrId, amount)`, its error wrapped,
and that is the one call the recording repository logs. -/
theorem transfer_identifier_validation {σ : Type} (uc : usecase.AccountUseCase σ) (s : σ)
    (redeemId accrId : Int) (amount : Float64) (hne : accrId ≠ redeemId)
    (hpos : Float64.lt Float64.zero amount = true) :
    (redeemId < 0 →
        uc.TransferAmount s redeemId accrId amount =
          (.error (.wrap "AccountUseCase - TransferAmount - uc.idValidation" ErrorIdIsNegative), s)
        ∧ ((usecase.New (recording uc.repo)).TransferAmount ([], s) redeemId accrId amount).2
            = ([], s))
      ∧ (redeemId = 0 →
        uc.TransferAmount s redeemId accrId amount =
          (.error (.wrap "AccountUseCase - TransferAmount - uc.idValidation" ErrorIdIsZero), s)
        ∧ ((usecase.New (recording uc.repo)).TransferAmount ([], s) redeemId accrId amount).2
            = ([], s))
      ∧ (0 < redeemId → accrId < 0 →
        uc.TransferAmount s redeemId accrId amount =
          (.error (.wrap "AccountUseCase - TransferAmount - uc.idValidation" ErrorIdIsNegative), s)
        ∧ ((usecase.New (recording uc.repo)).TransferAmount ([], s) redeemId accrId amount).2
            = ([], s))
      ∧ (0 < redeemId → accrId = 0 →
        uc.TransferAmount s redeemId accrId amount =
          (.error (.wrap "AccountUseCase - TransferAmount - uc.idValidation" ErrorIdIsZero), s)
        ∧ ((usecase.New (recording uc.repo)).TransferAmount ([], s) redeemId accrId amount).2
            = ([], s))
      ∧ (0 < redeemId → 0 < accrId →
        uc.TransferAmount s redeemId accrId amount =
          wrapError "AccountUseCase - TransferAmount - uc.repo.TransferAmount"
            (uc.repo.TransferAmount s redeemId accrId amount)
        ∧ ((usecase.New (recording uc.repo)).TransferAmount ([], s) redeemId accrId amount).2
            = ([Call.TransferAmount redeemId accrId amount],
                (uc.repo.TransferAmount s redeemId accrId amount).2)) := by
  have hv := amountValidation_of_pos amount hpos
  refine ⟨?_, ?_, ?_, ?_, ?_⟩
  · intro h
    simp [usecase.AccountUseCase.TransferAmount, usecase.New, hne, hv, idValidation_of_neg _ h]
  · intro h
    subst h
    simp [usecase.AccountUseCase.TransferAmount, usecase.New, hne, hv, idValidation_zero]
  · intro h h2
    simp [usecase.AccountUseCase.TransferAmount, usecase.New, hne, hv, idValidation_of_pos _ h,
      idValidation_of_neg _ h2]
  · intro h h2
    subst h2
    simp [usecase.AccountUseCase.TransferAmount, usecase.New, hv, idValidation_of_pos _ h,
      idValidation_zero, h.ne]
  · intro h h2
    constructor
    · simp only [usecase.AccountUseCase.TransferAmount, hne, hv, idValidation_of_pos _ h,
        idValidation_of_pos _ h2, if_false, wrapError]
      rcases uc.repo.TransferAmount s redeemId accrId amount with ⟨_ | _, _⟩ <;> rfl
    · simp only [usecase.AccountUseCase.TransferAmount, usecase.New, hne, hv,
        idValidation_of_pos _ h, idValidation_of_pos _ h2, recording, if_false]
      cases hr : (uc.repo.TransferAmount s redeemId accrId amount).1 <;> simp [hr]

/-- Witness of C9: identifiers 1 and 2 and the amount 1 on the sample store, where the call
is handed to the repository. -/
theorem transfer_identifier_validation_witness :
    (2 : Int) ≠ 1 ∧ Float64.lt Float64.zero (.ofInt 1) = true ∧ (0 : Int) < 1 ∧ (0 : Int) < 2
      ∧ service.TransferAmount pgTwo 1 2 (.ofInt 1) =
          wrapError "AccountUseCase - TransferAmount - uc.repo.TransferAmount"
            (service.repo.TransferAmount pgTwo 1 2 (.ofInt 1))
      ∧ ((usecase.New (recording service.repo)).TransferAmount ([], pgTwo) 1 2 (.ofInt 1)).2
          = ([Call.TransferAmount 1 2 (.ofInt 1)], (service.repo.TransferAmount pgTwo 1 2 (.ofInt 1)).2) :=
  ⟨by decide, by decide, by decide, by decide,
    (transfer_identifier_validation service pgTwo 1 2 (.ofInt 1) (by decide) (by decide)).2.2.2.2
      (by decide) (by decide)⟩

/-- C8. The amount NaN is not strictly positive, yet `amountValidation` lets it pass: on the
sample store `TransferAmount(1, 2, NaN)` does not fail with an amount error, the repository
is called with the amount NaN, and the transfer is committed. -/
theorem transfer_nan_amount_reaches_store :
    Float64.lt Float64.zero Float64.nan = false
      ∧ usecase.AccountUseCase.amountValidation Float64.nan = none
      ∧ failsWith (service.TransferAmount pgZero 1 2 Float64.nan).1 ErrorAmountIsZero = false
      ∧ failsWith (service.TransferAmount pgZero 1 2 Float64.nan).1 ErrorAmountIsNegative = false
      ∧ ((usecase.New (recording postgresRepo)).TransferAmount ([], pgZero) 1 2 Float64.nan).2.1
          = [Call.TransferAmount 1 2 Float64.nan]
      ∧ (service.TransferAmount pgZero 1 2 Float64.nan).1 =
          .ok ({ Id := 2, Balance := .nan, CreatedDt := 2 },
               { Id := 1, Balance := .nan, CreatedDt := 1 }) := by
  refine ⟨rfl, rfl, rfl, rfl, rfl, rfl⟩

/-- C1. The sample store has only balances `>= 0`. After `TransferAmount(1, 2, NaN)`, which
succeeds, the balances of accounts 1 and 2 are NaN, which is not `>= 0`; from then on account
1, which never held any money, pays 1000 to account 3. -/
theorem nan_transfer_breaks_nonnegative :
    NonNegative pgZero
      ∧ (service.TransferAmount pgZero 1 2 Float64.nan).2.account =
          [{ Id := 1, Balance := .nan, CreatedDt := 1 },
           { Id := 2, Balance := .nan, CreatedDt := 2 },
           { Id := 3, Balance := .ofInt 0, CreatedDt := 3 }]
      ∧ Float64.ge Float64.nan Float64.zero = false
      ∧ ¬ NonNegative (service.TransferAmount pgZero 1 2 Float64.nan).2
      ∧ (service.TransferAmount (service.TransferAmount pgZero 1 2 Float64.nan).2 1 3
            (.ofInt 1000)).2.account =
          [{ Id := 1, Balance := .nan, CreatedDt := 1 },
           { Id := 2, Balance := .nan, CreatedDt := 2 },
           { Id := 3, Balance := .ofInt 1000, CreatedDt := 3 }] := by
  have h1 : (service.TransferAmount pgZero 1 2 Float64.nan).2.account =
      [{ Id := 1, Balance := .nan, CreatedDt := 1 },
       { Id := 2, Balance := .nan, CreatedDt := 2 },
       { Id := 3, Balance := .ofInt 0, CreatedDt := 3 }] := rfl
  refine ⟨?_, h1, rfl, ?_, ?_⟩
  · simp [NonNegative, pgZero, Float64.ge, Float64.lt, Float64.eq, Float64.zero, Float64.ofInt]
  · intro h
    have := h { Id := 1, Balance := .nan, CreatedDt := 1 } (by rw [h1]; simp)
    simp [Float64.ge, Float64.lt, Float64.eq, Float64.zero, Float64.ofInt] at this
  · rfl

theorem selectAccount_id {rows : List Account} {id : Int} {a : Account}
    (h : repo.selectAccount rows id = some a) : a.Id = id := by
  have := List.find?_some h
  simpa using this

theorem selectAccount_mem {rows : List Account} {id : Int} {a : Account}
    (h : repo.selectAccount rows id = some a) : a ∈ rows :=
  List.mem_of_find?_eq_some h

theorem selectAccount_updateBalance (rows : List Account) (id : Int) (amount : Float64) :
    repo.selectAccount (repo.updateBalance rows id amount) id =
      (repo.selectAccount rows id).map
        (fun a => { a with Balance := Float64.add a.Balance amount }) := by
  induction rows with
  | nil => rfl
  | cons a rest ih =>
    by_cases h : a.Id = id
    · simp [repo.selectAccount, repo.updateBalance, h]
    · simp only [repo.selectAccount, repo.updateBalance] at ih
      simp [repo.selectAccount, repo.updateBalance, h, ih]

theorem selectAccount_updateBalance_ne (rows : List Account) (id j : Int) (amount : Float64)
    (h : j ≠ id) :
    repo.selectAccount (repo.updateBalance rows id amount) j = repo.selectAccount rows j := by
  induction rows with
  | nil => rfl
  | cons a rest ih =>
    simp only [repo.selectAccount, repo.updateBalance] at ih
    by_cases h1 : a.Id = id
    · have h2 : ¬ a.Id = j := fun e => h (e.symm.trans h1)
      have h3 : ¬ id = j := fun e => h e.symm
      simp [repo.selectAccount, repo.updateBalance, h1, h3, ih]
    · by_cases h2 : a.Id = j
      · simp [repo.selectAccount, repo.updateBalance, h1, h2, h]
      · simp [repo.selectAccount, repo.updateBalance, h1, h2, ih]

theorem updBalance_eq (tx : Tx) (transType : String) (id docNum : Int) (amount : Float64) :
    repo.AccountRepo.updBalance tx transType id docNum amount =
      match repo.selectAccount tx.work.account id with
      | none => (.error (.wrap "AccountRepo - updBalance - tx.QueryRow" ErrNoRows), tx)
      | some row =>
        if Float64.lt (Float64.add row.Balance amount) Float64.zero then
          (.error (.wrap "AccountRepo - updBalance - tx.QueryRow" ErrNotEnoughMoney), tx)
        else
          (.ok { row with Balance := Float64.add row.Balance amount },
            { work := repo.insertTransaction
                { tx.work with account := repo.updateBalance tx.work.account id amount }
                id docNum transType amount }) := by
  unfold repo.AccountRepo.updBalance
  cases h : repo.selectAccount tx.work.account id with
  | none => rfl
  | some row =>
    simp only []
    split_ifs with hlt
    · rfl
    · simp [selectAccount_updateBalance, h]

theorem repo_UpdBalance_eq (pg : Postgres) (id docNum : Int) (amount : Float64) :
    repo.AccountRepo.UpdBalance pg id docNum amount =
      match repo.selectTransactionType amount with
      | .error err =>
        (.error (.wrap "AccountRepo - UpdBalance - selectTransactionType" err), pg)
      | .ok transType =>
        match repo.selectAccount pg.account id with
        | none =>
          (.error (.wrap "AccountRepo - UpdBalance - r.updBalance"
            (.wrap "AccountRepo - updBalance - tx.QueryRow" ErrNoRows)), pg)
        | some row =>
          if Float64.lt (Float64.add row.Balance amount) Float64.zero then
            (.error (.wrap "AccountRepo - UpdBalance - r.updBalance"
              (.wrap "AccountRepo - updBalance - tx.QueryRow" ErrNotEnoughMoney)), pg)
          else
            (.ok { row with Balance := Float64.add row.Balance amount },
              repo.insertTransaction
                { pg with account := repo.updateBalance pg.account id amount }
                id docNum transType amount) := by
  unfold repo.AccountRepo.UpdBalance
  cases repo.selectTransactionType amount with
  | error err => rfl
  | ok transType =>
    simp only [updBalance_eq, Postgres.BeginTx]
    cases repo.selectAccount pg.account id with
    | none => rfl
    | some row =>
      simp only []
      split_ifs with hlt
      · rfl
      · rfl

theorem repo_TransferAmount_eq (pg : Postgres) (redeemId accrId : Int) (amount : Float64) :
    repo.AccountRepo.TransferAmount pg redeemId accrId amount =
      match repo.selectAccount pg.account redeemId with
      | none =>
        (.error (.wrap "AccountRepo - TransferAmount - r.updBalance"
          (.wrap "AccountRepo - updBalance - tx.QueryRow" ErrNoRows)), pg)
      | some rrow =>
        if Float64.lt (Float64.add rrow.Balance (Float64.neg amount)) Float64.zero then
          (.error (.wrap "AccountRepo - TransferAmount - r.updBalance"
            (.wrap "AccountRepo - updBalance - tx.QueryRow" ErrNotEnoughMoney)), pg)
        else
          match repo.selectAccount
              (repo.updateBalance pg.account redeemId (Float64.neg amount)) accrId with
          | none =>
            (.error (.wrap "AccountRepo - TransferAmount - r.updBalance"
              (.wrap "AccountRepo - updBalance - tx.QueryRow" ErrNoRows)), pg)
          | some arow =>
            if Float64.lt (Float64.add arow.Balance amount) Float64.zero then
              (.error (.wrap "AccountRepo - TransferAmount - r.updBalance"
                (.wrap "AccountRepo - updBalance - tx.QueryRow" ErrNotEnoughMoney)), pg)
            else
              (.ok ({ arow with Balance := Float64.add arow.Balance amount },
                    { rrow with Balance := Float64.add rrow.Balance (Float64.neg amount) }),
                repo.insertTransaction
                  { repo.insertTransaction
                      { pg with
                        account := repo.updateBalance pg.account redeemId (Float64.neg amount) }
                      redeemId accrId "redeem" (Float64.neg amount) with
                    account := repo.updateBalance
                      (repo.updateBalance pg.account redeemId (Float64.neg amount)) accrId amount }
                  accrId redeemId "accrual" amount) := by
  unfold repo.AccountRepo.TransferAmount
  simp only [updBalance_eq, Postgres.BeginTx]
  cases repo.selectAccount pg.account redeemId with
  | none => rfl
  | some rrow =>
    simp only []
    split_ifs with hlt
    · rfl
    · simp only [repo.insertTransaction]
      cases repo.selectAccount
          (repo.updateBalance pg.account redeemId (Float64.neg amount)) accrId with
      | none => rfl
      | some arow =>
        simp only []
        split_ifs with hlt2
        · rfl
        · rfl

theorem failsWith_GetById_of_pos (pg : Postgres) (id : Int) (h : 0 < id) (msg : String)
    (h1 : "no rows in result set" ≠ msg) :
    failsWith (service.GetById pg id).1 (.new msg) = false := by
  simp only [service, usecase.New, usecase.AccountUseCase.GetById, idValidation_of_pos _ h,
    postgresRepo, repo.AccountRepo.GetById]
  cases repo.selectAccount pg.account id <;> simp [failsWith, GoError.Is, ErrNoRows, h1]

theorem failsWith_UpdBalance_of_pos (pg : Postgres) (id : Int) (amount : Float64) (h : 0 < id)
    (msg : String) (h1 : "no rows in result set" ≠ msg) (h2 : "not enough money" ≠ msg)
    (h3 : "amount in transaction is zero" ≠ msg) (h4 : "amount is zero" ≠ msg) :
    failsWith (service.UpdBalance pg id amount).1 (.new msg) = false := by
  simp only [service, usecase.New, usecase.AccountUseCase.UpdBalance, idValidation_of_pos _ h,
    postgresRepo, repo_UpdBalance_eq]
  split_ifs with hz
  · simp [failsWith, GoError.Is, ErrorAmountIsZero, h4]
  · unfold repo.selectTransactionType
    split_ifs
    · cases repo.selectAccount pg.account id with
      | none => simp [failsWith, GoError.Is, ErrNoRows, h1]
      | some row =>
        simp only []
        split_ifs <;> simp [failsWith, GoError.Is, ErrNotEnoughMoney, h2]
    · cases repo.selectAccount pg.account id with
      | none => simp [failsWith, GoError.Is, ErrNoRows, h1]
      | some row =>
        simp only []
        split_ifs <;> simp [failsWith, GoError.Is, ErrNotEnoughMoney, h2]
    · simp [failsWith, GoError.Is, h3]

theorem failsWith_GetHistory_of_pos (pg : Postgres) (id : Int) (limit offset : Nat)
    (sort isDecreasingValue : String) (h : 0 < id) (msg : String) :
    failsWith (service.GetHistory pg id limit offset sort isDecreasingValue).1 (.new msg)
      = false := by
  simp only [service, usecase.New, usecase.AccountUseCase.GetHistory, idValidation_of_pos _ h,
    postgresRepo, repo.AccountRepo.GetHistory]
  cases repo.orderBy (if sort = "" then "trans_dt" else sort) with
  | some le => simp [failsWith, GoError.Is]
  | none =>
    cases pg.orderByOther (repo.orderByPred (if sort = "" then "trans_dt" else sort)
        (decide (strings.ToLower isDecreasingValue = "true"))) <;>
      simp [failsWith, GoError.Is]

/-- C10. For `GetById`, `UpdBalance` and `GetHistory` of the service on the store, whatever
the state and the other arguments: the call fails with `ErrorIdIsNegative` exactly when
`id < 0` and with `ErrorIdIsZero` exactly when `id = 0` (so with an identifier error exactly
when `id <= 0`), and `idValidation` returns no error exactly when `id > 0`. -/
theorem service_identifier_errors_iff (pg : Postgres) (id : Int) (amount : Float64)
    (limit offset : Nat) (sort isDecreasingValue : String) :
    (usecase.AccountUseCase.idValidation id = some ErrorIdIsNegative ↔ id < 0)
      ∧ (usecase.AccountUseCase.idValidation id = some ErrorIdIsZero ↔ id = 0)
      ∧ (usecase.AccountUseCase.idValidation id = none ↔ 0 < id)
      ∧ (failsWith (service.GetById pg id).1 ErrorIdIsNegative = true ↔ id < 0)
      ∧ (failsWith (service.GetById pg id).1 ErrorIdIsZero = true ↔ id = 0)
      ∧ (failsWith (service.UpdBalance pg id amount).1 ErrorIdIsNegative = true ↔ id < 0)
      ∧ (failsWith (service.UpdBalance pg id amount).1 ErrorIdIsZero = true ↔ id = 0)
      ∧ (failsWith (service.GetHistory pg id limit offset sort isDecreasingValue).1
            ErrorIdIsNegative = true ↔ id < 0)
      ∧ (failsWith (service.GetHistory pg id limit offset sort isDecreasingValue).1
            ErrorIdIsZero = true ↔ id = 0) := by
  rcases lt_trichotomy id 0 with h | h | h
  · have hv := idValidation_of_neg id h
    have hne : id ≠ 0 := h.ne
    have hnp : ¬ 0 < id := not_lt.mpr h.le
    simp [service, usecase.New, usecase.AccountUseCase.GetById,
      usecase.AccountUseCase.UpdBalance, usecase.AccountUseCase.GetHistory, hv, h, hne, hnp,
      failsWith, GoError.Is, ErrorIdIsNegative, ErrorIdIsZero]
  · subst h
    simp [service, usecase.New, usecase.AccountUseCase.GetById,
      usecase.AccountUseCase.UpdBalance, usecase.AccountUseCase.GetHistory, idValidation_zero,
      failsWith, GoError.Is, ErrorIdIsNegative, ErrorIdIsZero]
  · have hv := idValidation_of_pos id h
    have hne : id ≠ 0 := h.ne'
    have hnn : ¬ id < 0 := not_lt.mpr h.le
    simp [hv, hne, hnn, h, ErrorIdIsNegative, ErrorIdIsZero,
      failsWith_GetById_of_pos pg id h, failsWith_UpdBalance_of_pos pg id amount h,
      failsWith_GetHistory_of_pos pg id limit offset sort isDecreasingValue h]

theorem Float64.lt_zero_of_ge_zero (v : Float64) (h : Float64.ge v Float64.zero = true) :
    Float64.lt v Float64.zero = false := by
  cases v with
  | nan => rfl
  | ninf => simp [Float64.ge, Float64.lt, Float64.eq, Float64.zero, Float64.ofInt] at h
  | pinf => rfl
  | fin m e =>
    simp only [Float64.ge, Float64.lt_zero_fin, Float64.eq_fin_zero, Bool.or_eq_true,
      decide_eq_true_eq] at h
    simp only [Float64.lt_fin_zero, decide_eq_false_iff_not, not_lt]
    omega

theorem selectTransactionType_of_lt_zero (amount : Float64)
    (h : Float64.lt amount Float64.zero = true) :
    repo.selectTransactionType amount = .ok "redeem" := by
  cases amount with
  | nan => simp [Float64.lt, Float64.zero, Float64.ofInt] at h
  | ninf => simp [repo.selectTransactionType, Float64.lt, Float64.zero, Float64.ofInt]
  | pinf => simp [Float64.lt, Float64.zero, Float64.ofInt] at h
  | fin m e =>
    rw [Float64.lt_fin_zero] at h
    have hq : m < 0 := by simpa using h
    simp [repo.selectTransactionType, Float64.lt_fin_zero, Float64.lt_zero_fin, hq,
      not_lt.mpr hq.le]

theorem selectTransactionType_of_pos (amount : Float64)
    (h : Float64.lt Float64.zero amount = true) :
    repo.selectTransactionType amount = .ok "accrual" := by
  simp [repo.selectTransactionType, h]

theorem amount_neg_of_sum_neg (b amount : Float64) (hb : Float64.lt b Float64.zero = false)
    (h : Float64.lt (Float64.add b amount) Float64.zero = true) :
    Float64.lt amount Float64.zero = true ∧ Float64.eq amount Float64.zero = false := by
  cases b with
  | nan => simp [Float64.add, Float64.lt] at h
  | ninf => simp [Float64.lt, Float64.zero, Float64.ofInt] at hb
  | pinf => cases amount <;> simp [Float64.add, Float64.lt, Float64.zero, Float64.ofInt] at h
  | fin q e1 =>
    rw [Float64.lt_fin_zero] at hb
    have hq : 0 ≤ q := by simpa using hb
    cases amount with
    | nan => simp [Float64.add, Float64.lt] at h
    | ninf => simp [Float64.lt, Float64.eq, Float64.zero, Float64.ofInt]
    | pinf => simp [Float64.add, Float64.lt, Float64.zero, Float64.ofInt] at h
    | fin x e2 =>
      simp only [Float64.add, Float64.lt_round_zero, decide_eq_true_eq] at h
      have h1 : (0 : ℤ) < 2 ^ (e1 - min e1 e2) := by positivity
      have h2 : (0 : ℤ) < 2 ^ (e2 - min e1 e2) := by positivity
      have hx0 : x < 0 := by
        by_contra hx
        have := mul_nonneg hq h1.le
        have := mul_nonneg (not_lt.mp hx) h2.le
        omega
      simp [Float64.lt_fin_zero, Float64.eq_fin_zero, hx0, hx0.ne]

/-- C2. For an account found under `id > 0` whose balance `b` is not below zero, and an
amount with `b + amount < 0`, `UpdBalance(id, amount)` fails with the wrapped
`ErrNotEnoughMoney` and returns the store as it was: the account still has the balance `b`
and the ledger has the same rows. -/
theorem updBalance_insufficient_funds (pg : Postgres) (id : Int) (amount : Float64)
    (acc : Account) (hid : 0 < id) (hacc : repo.selectAccount pg.account id = some acc)
    (hb : Float64.lt acc.Balance Float64.zero = false)
    (hlt : Float64.lt (Float64.add acc.Balance amount) Float64.zero = true) :
    service.UpdBalance pg id amount =
        (.error (.wrap "AccountUseCase - UpdBalance - uc.repo.UpdBalance"
          (.wrap "AccountRepo - UpdBalance - r.updBalance"
            (.wrap "AccountRepo - updBalance - tx.QueryRow" ErrNotEnoughMoney))), pg)
      ∧ failsWith (service.UpdBalance pg id amount).1 ErrNotEnoughMoney = true
      ∧ repo.selectAccount (service.UpdBalance pg id amount).2.account id = some acc
      ∧ (service.UpdBalance pg id amount).2.fct_transcation = pg.fct_transcation := by
  obtain ⟨hneg, hnz⟩ := amount_neg_of_sum_neg acc.Balance amount hb hlt
  have h : service.UpdBalance pg id amount =
      (.error (.wrap "AccountUseCase - UpdBalance - uc.repo.UpdBalance"
        (.wrap "AccountRepo - UpdBalance - r.updBalance"
          (.wrap "AccountRepo - updBalance - tx.QueryRow" ErrNotEnoughMoney))), pg) := by
    simp [service, usecase.New, usecase.AccountUseCase.UpdBalance, idValidation_of_pos _ hid,
      hnz, postgresRepo, repo_UpdBalance_eq, selectTransactionType_of_lt_zero _ hneg, hacc, hlt]
  refine ⟨h, ?_, ?_, ?_⟩
  · rw [h]; rfl
  · rw [h]; exact hacc
  · rw [h]

/-- Witness of C2: account 1 of the sample store, balance 30, and the amount -105. -/
theorem updBalance_insufficient_funds_witness :
    (0 : Int) < 1
      ∧ repo.selectAccount pgTwo.account 1 = some { Id := 1, Balance := .ofInt 30, CreatedDt := 7 }
      ∧ Float64.lt (.ofInt 30) Float64.zero = false
      ∧ Float64.lt (Float64.add (.ofInt 30) (.ofInt (-105))) Float64.zero = true
      ∧ service.UpdBalance pgTwo 1 (.ofInt (-105)) =
          (.error (.wrap "AccountUseCase - UpdBalance - uc.repo.UpdBalance"
            (.wrap "AccountRepo - UpdBalance - r.updBalance"
              (.wrap "AccountRepo - updBalance - tx.QueryRow" ErrNotEnoughMoney))), pgTwo) :=
  ⟨by decide, rfl, by decide, by decide,
    (updBalance_insufficient_funds pgTwo 1 (.ofInt (-105))
      { Id := 1, Balance := .ofInt 30, CreatedDt := 7 } (by decide) rfl (by decide)
      (by decide)).1⟩

theorem amount_sign_of_sum_ge (b amount : Float64)
    (hne : Float64.eq amount Float64.zero = false)
    (hge : Float64.ge (Float64.add b amount) Float64.zero = true) :
    (Float64.lt Float64.zero amount = true ∧ Float64.lt amount Float64.zero = false)
      ∨ (Float64.lt Float64.zero amount = false ∧ Float64.lt amount Float64.zero = true) := by
  cases amount with
  | nan => cases b <;> simp [Float64.add, Float64.ge, Float64.lt, Float64.eq, Float64.zero, Float64.ofInt] at hge
  | ninf => right; simp [Float64.lt, Float64.zero, Float64.ofInt]
  | pinf => left; simp [Float64.lt, Float64.zero, Float64.ofInt]
  | fin x e =>
    rw [Float64.eq_fin_zero] at hne
    have hx : x ≠ 0 := by simpa using hne
    rcases lt_or_gt_of_ne hx with h | h
    · right; simp [Float64.lt_fin_zero, Float64.lt_zero_fin, h, not_lt.mpr h.le]
    · left; simp [Float64.lt_fin_zero, Float64.lt_zero_fin, h, not_lt.mpr h.le]

/-- C3. For an account found under `id > 0` with balance `b` and creation instant `t`, and
an amount `!= 0` with `b + amount >= 0`, `UpdBalance(id, amount)` returns the snapshot
`(id, b + amount, t)`, `b + amount` being the float64 sum; in the store it leaves, the
rows of table `account` with that identifier have the amount added to their balance and all
other rows are as before, and
the ledger has exactly one more row, at the end: owner `id`, document number `-999`, the
amount, and the kind `accrual` if `amount > 0` and `redeem` otherwise, in which case
`amount < 0`. Looked up by identifier: `id` now has the balance `b + amount` and every
other identifier gives the row it gave before. -/
theorem updBalance_success (pg : Postgres) (id : Int) (amount : Float64) (acc : Account)
    (hid : 0 < id) (hacc : repo.selectAccount pg.account id = some acc)
    (hne : Float64.eq amount Float64.zero = false)
    (hge : Float64.ge (Float64.add acc.Balance amount) Float64.zero = true) :
    service.UpdBalance pg id amount =
        (.ok { Id := id, Balance := Float64.add acc.Balance amount, CreatedDt := acc.CreatedDt },
          { account := pg.account.map
              (fun a => if a.Id = id then { a with Balance := Float64.add a.Balance amount }
                else a)
            fct_transcation := pg.fct_transcation ++
              [{ Id := defaultId (pg.fct_transcation.map Transaction.Id)
                 TransDt := pg.now
                 AccountId := id
                 DocNum := -999
                 Type_ := if Float64.lt Float64.zero amount then "accrual" else "redeem"
                 Amount := amount }]
            now := pg.now
            orderByOther := pg.orderByOther })
      ∧ (Float64.lt Float64.zero amount = false → Float64.lt amount Float64.zero = true)
      ∧ repo.selectAccount (service.UpdBalance pg id amount).2.account id =
          some { Id := id, Balance := Float64.add acc.Balance amount, CreatedDt := acc.CreatedDt }
      ∧ (∀ j : Int, j ≠ id →
          repo.selectAccount (service.UpdBalance pg id amount).2.account j =
            repo.selectAccount pg.account j) := by
  have hguard := Float64.lt_zero_of_ge_zero _ hge
  have hidacc : acc.Id = id := selectAccount_id hacc
  have hsign := amount_sign_of_sum_ge acc.Balance amount hne hge
  have h : service.UpdBalance pg id amount =
      (.ok { Id := id, Balance := Float64.add acc.Balance amount, CreatedDt := acc.CreatedDt },
        { account := pg.account.map
            (fun a => if a.Id = id then { a with Balance := Float64.add a.Balance amount }
              else a)
          fct_transcation := pg.fct_transcation ++
            [{ Id := defaultId (pg.fct_transcation.map Transaction.Id)
               TransDt := pg.now
               AccountId := id
               DocNum := -999
               Type_ := if Float64.lt Float64.zero amount then "accrual" else "redeem"
               Amount := amount }]
          now := pg.now
          orderByOther := pg.orderByOther }) := by
    rcases hsign with ⟨hp, hn⟩ | ⟨hp, hn⟩
    · simp [service, usecase.New, usecase.AccountUseCase.UpdBalance, idValidation_of_pos _ hid,
        hne, postgresRepo, repo_UpdBalance_eq, selectTransactionType_of_pos _ hp, hacc, hguard,
        repo.insertTransaction, repo.updateBalance, hp, hidacc]
    · simp [service, usecase.New, usecase.AccountUseCase.UpdBalance, idValidation_of_pos _ hid,
        hne, postgresRepo, repo_UpdBalance_eq, selectTransactionType_of_lt_zero _ hn, hacc,
        hguard, repo.insertTransaction, repo.updateBalance, hp, hidacc]
  refine ⟨h, ?_, ?_, ?_⟩
  · intro hp
    rcases hsign with ⟨hp1, _⟩ | ⟨_, hn⟩
    · rw [hp1] at hp; cases hp
    · exact hn
  · rw [h]
    have := selectAccount_updateBalance pg.account id amount
    simp only [repo.updateBalance] at this
    simp [this, hacc, hidacc]
  · intro j hj
    rw [h]
    have := selectAccount_updateBalance_ne pg.account id j amount hj
    simpa only [repo.updateBalance] using this

/-- Witness of C3: account 1 of the sample store, balance 30, and the amount -5; the new
balance is the float64 sum `30 + (-5) = 25`. -/
theorem updBalance_success_witness :
    (0 : Int) < 1
      ∧ repo.selectAccount pgTwo.account 1 = some { Id := 1, Balance := .ofInt 30, CreatedDt := 7 }
      ∧ Float64.eq (.ofInt (-5)) Float64.zero = false
      ∧ Float64.ge (Float64.add (.ofInt 30) (.ofInt (-5))) Float64.zero = true
      ∧ (service.UpdBalance pgTwo 1 (.ofInt (-5))).1 =
          .ok { Id := 1, Balance := .ofInt 25, CreatedDt := 7 }
      ∧ repo.selectAccount (service.UpdBalance pgTwo 1 (.ofInt (-5))).2.account 1 =
          some { Id := 1, Balance := .ofInt 25, CreatedDt := 7 }
      ∧ (service.UpdBalance pgTwo 1 (.ofInt (-5))).2.account =
          [{ Id := 1, Balance := .ofInt 25, CreatedDt := 7 },
           { Id := 2, Balance := .ofInt 4, CreatedDt := 8 }]
      ∧ (service.UpdBalance pgTwo 1 (.ofInt (-5))).2.fct_transcation =
          [{ Id := 1, TransDt := 9, AccountId := 1, DocNum := -999, Type_ := "redeem",
             Amount := .ofInt (-5) }] :=
  ⟨by decide, rfl, by decide, by decide,
    congrArg Prod.fst
      (updBalance_success pgTwo 1 (.ofInt (-5)) { Id := 1, Balance := .ofInt 30, CreatedDt := 7 }
        (by decide) rfl (by decide) (by decide)).1,
    (updBalance_success pgTwo 1 (.ofInt (-5)) { Id := 1, Balance := .ofInt 30, CreatedDt := 7 }
      (by decide) rfl (by decide) (by decide)).2.2.1,
    congrArg (fun r => r.2.account)
      (updBalance_success pgTwo 1 (.ofInt (-5)) { Id := 1, Balance := .ofInt 30, CreatedDt := 7 }
        (by decide) rfl (by decide) (by decide)).1,
    congrArg (fun r => r.2.fct_transcation)
      (updBalance_success pgTwo 1 (.ofInt (-5)) { Id := 1, Balance := .ofInt 30, CreatedDt := 7 }
        (by decide) rfl (by decide) (by decide)).1⟩

theorem repo_TransferAmount_error_state (pg : Postgres) (redeemId accrId : Int)
    (amount : Float64) (err : GoError)
    (h : (repo.AccountRepo.TransferAmount pg redeemId accrId amount).1 = .error err) :
    (repo.AccountRepo.TransferAmount pg redeemId accrId amount).2 = pg := by
  revert h
  rw [repo_TransferAmount_eq]
  cases repo.selectAccount pg.account redeemId with
  | none => intro _; rfl
  | some rrow =>
    simp only []
    split_ifs with h1
    · intro _; rfl
    · cases repo.selectAccount
          (repo.updateBalance pg.account redeemId (Float64.neg amount)) accrId with
      | none => intro _; rfl
      | some arow =>
        simp only []
        split_ifs with h2
        · intro _; rfl
        · intro h; cases h

theorem service_TransferAmount_error_state (pg : Postgres) (redeemId accrId : Int)
    (amount : Float64) (err : GoError) (pg1 : Postgres)
    (h : service.TransferAmount pg redeemId accrId amount = (.error err, pg1)) : pg1 = pg := by
  simp only [service, usecase.New, usecase.AccountUseCase.TransferAmount, postgresRepo] at h
  split_ifs at h with h0
  · exact (congrArg Prod.snd h).symm
  · cases hv : usecase.AccountUseCase.amountValidation amount with
    | some e => rw [hv] at h; exact (congrArg Prod.snd h).symm
    | none =>
      rw [hv] at h
      cases hr : usecase.AccountUseCase.idValidation redeemId with
      | some e => rw [hr] at h; exact (congrArg Prod.snd h).symm
      | none =>
        rw [hr] at h
        cases ha : usecase.AccountUseCase.idValidation accrId with
        | some e => rw [ha] at h; exact (congrArg Prod.snd h).symm
        | none =>
          rw [ha] at h
          simp only [] at h
          rcases hres : repo.AccountRepo.TransferAmount pg redeemId accrId amount with ⟨r, s1⟩
          rw [hres] at h
          cases r with
          | error e =>
            have hs := repo_TransferAmount_error_state pg redeemId accrId amount e
              (by rw [hres])
            rw [hres] at hs
            have h2 : s1 = pg1 := (Prod.mk.inj h).2
            rw [← h2]
            exact hs
          | ok v => simp at h

theorem Float64.sub_neg_of_lt (b amount : Float64) (h : Float64.lt b amount = true) :
    Float64.lt (Float64.add b (Float64.neg amount)) Float64.zero = true := by
  cases b with
  | nan => simp [Float64.lt] at h
  | ninf => cases amount <;> simp_all [Float64.add, Float64.neg, Float64.lt, Float64.zero, Float64.ofInt]
  | pinf => cases amount <;> simp_all [Float64.add, Float64.neg, Float64.lt, Float64.zero, Float64.ofInt]
  | fin m1 e1 =>
    cases amount with
    | nan => simp [Float64.lt] at h
    | ninf => simp [Float64.lt] at h
    | pinf => simp [Float64.add, Float64.neg, Float64.lt, Float64.zero, Float64.ofInt]
    | fin m2 e2 =>
      simp only [Float64.lt, decide_eq_true_eq] at h
      simp only [Float64.add, Float64.neg, Float64.lt_round_zero, decide_eq_true_eq]
      rw [neg_mul]
      omega

/-- C6. `TransferAmount` of the service on the store is atomic. Whenever it returns an
error, the store it returns is the store it was given. In particular, for valid distinct
identifiers and an amount `> 0`: if the redeem account's balance is smaller than the amount,
the call fails with the wrapped `ErrNotEnoughMoney` and the store is unchanged; if the redeem
leg succeeds (inside the transaction it has added its ledger row) but no account has the
accrual identifier, the call fails with the wrapped `ErrNoRows` and the store is unchanged. -/
theorem transfer_atomic :
    (∀ (pg : Postgres) (redeemId accrId : Int) (amount : Float64) (err : GoError)
        (pg1 : Postgres),
        service.TransferAmount pg redeemId accrId amount = (.error err, pg1) → pg1 = pg)
      ∧ (∀ (pg : Postgres) (redeemId accrId : Int) (amount : Float64) (racc : Account),
          accrId ≠ redeemId → 0 < redeemId → 0 < accrId →
          Float64.lt Float64.zero amount = true →
          repo.selectAccount pg.account redeemId = some racc →
          Float64.lt racc.Balance amount = true →
          service.TransferAmount pg redeemId accrId amount =
            (.error (.wrap "AccountUseCase - TransferAmount - uc.repo.TransferAmount"
              (.wrap "AccountRepo - TransferAmount - r.updBalance"
                (.wrap "AccountRepo - updBalance - tx.QueryRow" ErrNotEnoughMoney))), pg))
      ∧ (∀ (pg : Postgres) (redeemId accrId : Int) (amount : Float64) (racc : Account),
          accrId ≠ redeemId → 0 < redeemId → 0 < accrId →
          Float64.lt Float64.zero amount = true →
          repo.selectAccount pg.account redeemId = some racc →
          Float64.lt (Float64.add racc.Balance (Float64.neg amount)) Float64.zero = false →
          repo.selectAccount pg.account accrId = none →
          (repo.AccountRepo.updBalance pg.BeginTx "redeem" redeemId accrId
              (Float64.neg amount)).2.work.fct_transcation =
            pg.fct_transcation ++
              [{ Id := defaultId (pg.fct_transcation.map Transaction.Id)
                 TransDt := pg.now
                 AccountId := redeemId
                 DocNum := accrId
                 Type_ := "redeem"
                 Amount := Float64.neg amount }]
          ∧ service.TransferAmount pg redeemId accrId amount =
            (.error (.wrap "AccountUseCase - TransferAmount - uc.repo.TransferAmount"
              (.wrap "AccountRepo - TransferAmount - r.updBalance"
                (.wrap "AccountRepo - updBalance - tx.QueryRow" ErrNoRows))), pg)) := by
  refine ⟨service_TransferAmount_error_state, ?_, ?_⟩
  · intro pg redeemId accrId amount racc hne hr ha hpos hsel hlt
    have hguard := Float64.sub_neg_of_lt _ _ hlt
    simp [service, usecase.New, usecase.AccountUseCase.TransferAmount, postgresRepo, hne,
      amountValidation_of_pos _ hpos, idValidation_of_pos _ hr, idValidation_of_pos _ ha,
      repo_TransferAmount_eq, hsel, hguard]
  · intro pg redeemId accrId amount racc hne hr ha hpos hsel hguard hnone
    have hsel2 : repo.selectAccount
        (repo.updateBalance pg.account redeemId (Float64.neg amount)) accrId = none := by
      rw [selectAccount_updateBalance_ne _ _ _ _ hne, hnone]
    constructor
    · simp [updBalance_eq, Postgres.BeginTx, hsel, hguard, repo.insertTransaction]
    · simp [service, usecase.New, usecase.AccountUseCase.TransferAmount, postgresRepo, hne,
        amountValidation_of_pos _ hpos, idValidation_of_pos _ hr, idValidation_of_pos _ ha,
        repo_TransferAmount_eq, hsel, hguard, hsel2]

/-- Witness of C6: on the sample store, a transfer of 1 from account 1 to the identifier
150, which no account has: the error is returned and the store is the one given. -/
theorem transfer_atomic_witness :
    service.TransferAmount pgTwo 1 150 (.ofInt 1) =
        (.error (.wrap "AccountUseCase - TransferAmount - uc.repo.TransferAmount"
          (.wrap "AccountRepo - TransferAmount - r.updBalance"
            (.wrap "AccountRepo - updBalance - tx.QueryRow" ErrNoRows))),
          (service.TransferAmount pgTwo 1 150 (.ofInt 1)).2)
      ∧ (service.TransferAmount pgTwo 1 150 (.ofInt 1)).2 = pgTwo :=
  have h : service.TransferAmount pgTwo 1 150 (.ofInt 1) =
      (.error (.wrap "AccountUseCase - TransferAmount - uc.repo.TransferAmount"
        (.wrap "AccountRepo - TransferAmount - r.updBalance"
          (.wrap "AccountRepo - updBalance - tx.QueryRow" ErrNoRows))),
        (service.TransferAmount pgTwo 1 150 (.ofInt 1)).2) := by
    rfl
  ⟨h, transfer_atomic.1 pgTwo 1 150 (.ofInt 1) _ _ h⟩

/-- Two balance updates on different identifiers, as one map over the rows. -/
theorem updateBalance_twice (rows : List Account) (r a : Int) (d1 d2 : Float64) (hne : a ≠ r) :
    repo.updateBalance (repo.updateBalance rows r d1) a d2 =
      rows.map (fun x =>
        if x.Id = r then { x with Balance := Float64.add x.Balance d1 }
        else if x.Id = a then { x with Balance := Float64.add x.Balance d2 }
        else x) := by
  simp only [repo.updateBalance, List.map_map]
  apply List.map_congr_left
  intro x _
  by_cases h1 : x.Id = r
  · have h2 : ¬ r = a := fun e => hne e.symm
    simp [h1, h2]
  · simp [h1]

theorem updateBalance_ids (rows : List Account) (id : Int) (d : Float64) :
    (repo.updateBalance rows id d).map Account.Id = rows.map Account.Id := by
  simp only [repo.updateBalance, List.map_map]
  apply List.map_congr_left
  intro x _
  by_cases h : x.Id = id <;> simp [h]

theorem updateBalance_of_absent (rows : List Account) (id : Int) (d : Float64)
    (h : id ∉ rows.map Account.Id) : repo.updateBalance rows id d = rows := by
  simp only [repo.updateBalance]
  conv_rhs => rw [← List.map_id rows]
  apply List.map_congr_left
  intro x hx
  have : x.Id ≠ id := fun e => h (e ▸ List.mem_map_of_mem Account.Id hx)
  simp [this]

/-- The exact total after one balance update, identifiers being unique: only the row found
under the identifier counts differently. -/
theorem sum_units_updateBalance (rows : List Account) (id : Int) (d : Float64) (acc : Account)
    (hu : (rows.map Account.Id).Nodup) (hsel : repo.selectAccount rows id = some acc) :
    ((repo.updateBalance rows id d).map (fun a => Float64.units a.Balance)).sum =
      (rows.map (fun a => Float64.units a.Balance)).sum
        + (Float64.units (Float64.add acc.Balance d) - Float64.units acc.Balance) := by
  induction rows with
  | nil => simp [repo.selectAccount] at hsel
  | cons x rest ih =>
    have hu' : (rest.map Account.Id).Nodup := (List.nodup_cons.mp hu).2
    have hx : x.Id ∉ rest.map Account.Id := (List.nodup_cons.mp hu).1
    by_cases h1 : x.Id = id
    · have hacc : acc = x := by
        simp [repo.selectAccount, List.find?_cons, h1] at hsel
        exact hsel.symm
      subst hacc
      have hrest : repo.updateBalance rest id d = rest :=
        updateBalance_of_absent rest id d (h1 ▸ hx)
      have hcons : repo.updateBalance (acc :: rest) id d =
          { acc with Balance := Float64.add acc.Balance d } :: repo.updateBalance rest id d := by
        simp [repo.updateBalance, h1]
      rw [hcons, hrest]
      simp only [List.map_cons, List.sum_cons]
      ring
    · have hsel' : repo.selectAccount rest id = some acc := by
        simpa [repo.selectAccount, List.find?_cons, h1] using hsel
      have hcons : repo.updateBalance (x :: rest) id d = x :: repo.updateBalance rest id d := by
        simp [repo.updateBalance, h1]
      rw [hcons]
      simp only [List.map_cons, List.sum_cons]
      rw [ih hu' hsel']
      ring

theorem Float64.add_pos_not_neg (b amount : Float64)
    (hb : Float64.lt b Float64.zero = false) (hpos : Float64.lt Float64.zero amount = true) :
    Float64.lt (Float64.add b amount) Float64.zero = false := by
  cases b with
  | nan => simp [Float64.add, Float64.lt]
  | ninf => simp [Float64.lt, Float64.zero, Float64.ofInt] at hb
  | pinf => cases amount <;> simp_all [Float64.add, Float64.lt, Float64.zero, Float64.ofInt]
  | fin m1 e1 =>
    cases amount with
    | nan => simp [Float64.lt, Float64.zero, Float64.ofInt] at hpos
    | ninf => simp [Float64.lt, Float64.zero, Float64.ofInt] at hpos
    | pinf => simp [Float64.add, Float64.lt, Float64.zero, Float64.ofInt]
    | fin m2 e2 =>
      rw [Float64.lt_fin_zero] at hb
      rw [Float64.lt_zero_fin] at hpos
      have h1 : 0 ≤ m1 := by simpa using hb
      have h2 : 0 < m2 := by simpa using hpos
      have p1 : (0 : ℤ) < 2 ^ (e1 - min e1 e2) := by positivity
      have p2 : (0 : ℤ) < 2 ^ (e2 - min e1 e2) := by positivity
      simp only [Float64.add, Float64.lt_round_zero, decide_eq_false_iff_not, not_lt]
      have := mul_nonneg h1 p1.le
      have := mul_nonneg h2.le p2.le
      omega

/-- C4, amended. For two accounts found under distinct identifiers `redeemId > 0` and
`accrId > 0`, with balances `r` and `a` (`a` not below zero, as the data model has it), and
an amount `> 0` with `r - amount >= 0`, `TransferAmount` succeeds and returns the pair
(accrual snapshot, redeem snapshot); in the store it leaves the redeem account has the
balance `r - amount`, the accrual account `a + amount`, both as float64 results, and every
other identifier gives the row it gave before. Identifiers being unique, the exact total of
all balances is the same as before whenever neither of the two float64 results was rounded:
the new balances are then `r - amount` and `a + amount` as exact numbers. -/
theorem transfer_success (pg : Postgres) (redeemId accrId : Int) (amount : Float64)
    (racc aacc : Account) (hne : accrId ≠ redeemId) (hr : 0 < redeemId) (ha : 0 < accrId)
    (hpos : Float64.lt Float64.zero amount = true)
    (hselr : repo.selectAccount pg.account redeemId = some racc)
    (hsela : repo.selectAccount pg.account accrId = some aacc)
    (hge : Float64.ge (Float64.add racc.Balance (Float64.neg amount)) Float64.zero = true)
    (hnn : Float64.lt aacc.Balance Float64.zero = false)
    (hu : UniqueIds pg) :
    (service.TransferAmount pg redeemId accrId amount).1 =
        .ok ({ Id := accrId, Balance := Float64.add aacc.Balance amount,
               CreatedDt := aacc.CreatedDt },
             { Id := redeemId, Balance := Float64.add racc.Balance (Float64.neg amount),
               CreatedDt := racc.CreatedDt })
      ∧ (service.TransferAmount pg redeemId accrId amount).2.account =
          pg.account.map (fun x =>
            if x.Id = redeemId then
              { x with Balance := Float64.add x.Balance (Float64.neg amount) }
            else if x.Id = accrId then { x with Balance := Float64.add x.Balance amount }
            else x)
      ∧ repo.selectAccount (service.TransferAmount pg redeemId accrId amount).2.account redeemId =
          some { Id := redeemId, Balance := Float64.add racc.Balance (Float64.neg amount),
                 CreatedDt := racc.CreatedDt }
      ∧ repo.selectAccount (service.TransferAmount pg redeemId accrId amount).2.account accrId =
          some { Id := accrId, Balance := Float64.add aacc.Balance amount,
                 CreatedDt := aacc.CreatedDt }
      ∧ (∀ j : Int, j ≠ redeemId → j ≠ accrId →
          repo.selectAccount (service.TransferAmount pg redeemId accrId amount).2.account j =
            repo.selectAccount pg.account j)
      ∧ (Float64.units (Float64.add racc.Balance (Float64.neg amount)) =
            Float64.units racc.Balance - Float64.units amount →
          Float64.units (Float64.add aacc.Balance amount) =
            Float64.units aacc.Balance + Float64.units amount →
          exactTotal (service.TransferAmount pg redeemId accrId amount).2 = exactTotal pg) := by
  have hg1 := Float64.lt_zero_of_ge_zero _ hge
  have hg2 := Float64.add_pos_not_neg _ _ hnn hpos
  have hidr : racc.Id = redeemId := selectAccount_id hselr
  have hida : aacc.Id = accrId := selectAccount_id hsela
  have hsel2 : repo.selectAccount
      (repo.updateBalance pg.account redeemId (Float64.neg amount)) accrId = some aacc := by
    rw [selectAccount_updateBalance_ne _ _ _ _ hne, hsela]
  have h : service.TransferAmount pg redeemId accrId amount =
      (.ok ({ Id := accrId, Balance := Float64.add aacc.Balance amount,
              CreatedDt := aacc.CreatedDt },
            { Id := redeemId, Balance := Float64.add racc.Balance (Float64.neg amount),
              CreatedDt := racc.CreatedDt }),
        repo.insertTransaction
          { repo.insertTransaction
              { pg with
                account := repo.updateBalance pg.account redeemId (Float64.neg amount) }
              redeemId accrId "redeem" (Float64.neg amount) with
            account := repo.updateBalance
              (repo.updateBalance pg.account redeemId (Float64.neg amount)) accrId amount }
          accrId redeemId "accrual" amount) := by
    simp [service, usecase.New, usecase.AccountUseCase.TransferAmount, postgresRepo, hne,
      amountValidation_of_pos _ hpos, idValidation_of_pos _ hr, idValidation_of_pos _ ha,
      repo_TransferAmount_eq, hselr, hg1, hsel2, hg2, hidr, hida]
  have hacc : (service.TransferAmount pg redeemId accrId amount).2.account =
      repo.updateBalance (repo.updateBalance pg.account redeemId (Float64.neg amount))
        accrId amount := by
    rw [h]; rfl
  refine ⟨by rw [h], ?_, ?_, ?_, ?_, ?_⟩
  · rw [hacc, updateBalance_twice _ _ _ _ _ hne]
  · rw [hacc, selectAccount_updateBalance_ne _ _ _ _ (Ne.symm hne),
      selectAccount_updateBalance, hselr]
    simp [hidr]
  · rw [hacc, selectAccount_updateBalance, hsel2]
    simp [hida]
  · intro j hj1 hj2
    rw [hacc, selectAccount_updateBalance_ne _ _ _ _ hj2,
      selectAccount_updateBalance_ne _ _ _ _ hj1]
  · intro hx1 hx2
    have hu1 : ((repo.updateBalance pg.account redeemId (Float64.neg amount)).map
        Account.Id).Nodup := by
      rw [updateBalance_ids]; exact hu
    unfold exactTotal
    rw [hacc, sum_units_updateBalance _ _ _ _ hu1 hsel2,
      sum_units_updateBalance _ _ _ _ hu hselr, hx1, hx2]
    ring

/-- Witness of C4: on the sample store, a transfer of 1 from account 1 (balance 30) to
account 2 (balance 4) leaves the balances 29 and 5, neither of them rounded. -/
theorem transfer_success_witness :
    (2 : Int) ≠ 1 ∧ (0 : Int) < 1 ∧ (0 : Int) < 2
      ∧ Float64.lt Float64.zero (.ofInt 1) = true
      ∧ repo.selectAccount pgTwo.account 1 = some { Id := 1, Balance := .ofInt 30, CreatedDt := 7 }
      ∧ repo.selectAccount pgTwo.account 2 = some { Id := 2, Balance := .ofInt 4, CreatedDt := 8 }
      ∧ Float64.ge (Float64.add (.ofInt 30) (Float64.neg (.ofInt 1))) Float64.zero = true
      ∧ Float64.lt (.ofInt 4) Float64.zero = false
      ∧ UniqueIds pgTwo
      ∧ (service.TransferAmount pgTwo 1 2 (.ofInt 1)).1 =
          .ok ({ Id := 2, Balance := .ofInt 5, CreatedDt := 8 },
               { Id := 1, Balance := .ofInt 29, CreatedDt := 7 })
      ∧ (service.TransferAmount pgTwo 1 2 (.ofInt 1)).2.account =
          [{ Id := 1, Balance := .ofInt 29, CreatedDt := 7 },
           { Id := 2, Balance := .ofInt 5, CreatedDt := 8 }]
      ∧ exactTotal (service.TransferAmount pgTwo 1 2 (.ofInt 1)).2 = exactTotal pgTwo :=
  have hge : Float64.ge (Float64.add (.ofInt 30) (Float64.neg (.ofInt 1))) Float64.zero = true := by
    decide
  have hu : UniqueIds pgTwo := by simp [UniqueIds, pgTwo]
  have e1 : Float64.units (Float64.add (.ofInt 30) (Float64.neg (.ofInt 1))) =
      Float64.units (.ofInt 30) - Float64.units (.ofInt 1) := by
    show (29 : ℤ) * 2 ^ 1074 = 30 * 2 ^ 1074 - 1 * 2 ^ 1074
    ring
  have e2 : Float64.units (Float64.add (.ofInt 4) (.ofInt 1)) =
      Float64.units (.ofInt 4) + Float64.units (.ofInt 1) := by
    show (5 : ℤ) * 2 ^ 1074 = 4 * 2 ^ 1074 + 1 * 2 ^ 1074
    ring
  ⟨by decide, by decide, by decide, by decide, rfl, rfl, hge, by decide, hu,
    (transfer_success pgTwo 1 2 (.ofInt 1) { Id := 1, Balance := .ofInt 30, CreatedDt := 7 }
      { Id := 2, Balance := .ofInt 4, CreatedDt := 8 } (by decide) (by decide) (by decide)
      (by decide) rfl rfl hge (by decide) hu).1,
    (transfer_success pgTwo 1 2 (.ofInt 1) { Id := 1, Balance := .ofInt 30, CreatedDt := 7 }
      { Id := 2, Balance := .ofInt 4, CreatedDt := 8 } (by decide) (by decide) (by decide)
      (by decide) rfl rfl hge (by decide) hu).2.1,
    (transfer_success pgTwo 1 2 (.ofInt 1) { Id := 1, Balance := .ofInt 30, CreatedDt := 7 }
      { Id := 2, Balance := .ofInt 4, CreatedDt := 8 } (by decide) (by decide) (by decide)
      (by decide) rfl rfl hge (by decide) hu).2.2.2.2.2 e1 e2⟩

/-- C4, counterexample. On the store with account 1 (balance 3) and account 2 (balance
`2^53`), every condition of the claim holds for `TransferAmount(1, 2, 1)`, which succeeds:
account 1 has the balance 2 afterwards, and account 2 the float64 sum `2^53 + 1`, which is
`2^53` again and not the number `2^53 + 1`. Account 1 has paid 1 and account 2 has received
nothing: the total of the balances, added up in float64, is `2^53 + 4` before and
`2^53 + 2` after, and the exact total is 1 smaller than before. -/
theorem transfer_total_not_preserved :
    repo.selectAccount pgLarge.account 1 = some { Id := 1, Balance := .ofInt 3, CreatedDt := 1 }
      ∧ repo.selectAccount pgLarge.account 2 =
          some { Id := 2, Balance := .ofInt 9007199254740992, CreatedDt := 2 }
      ∧ Float64.lt Float64.zero (.ofInt 1) = true
      ∧ Float64.ge (Float64.add (.ofInt 3) (Float64.neg (.ofInt 1))) Float64.zero = true
      ∧ UniqueIds pgLarge
      ∧ (service.TransferAmount pgLarge 1 2 (.ofInt 1)).1 =
          .ok ({ Id := 2, Balance := .fin 4503599627370496 1075, CreatedDt := 2 },
               { Id := 1, Balance := .ofInt 2, CreatedDt := 1 })
      ∧ (service.TransferAmount pgLarge 1 2 (.ofInt 1)).2.account =
          [{ Id := 1, Balance := .ofInt 2, CreatedDt := 1 },
           { Id := 2, Balance := .fin 4503599627370496 1075, CreatedDt := 2 }]
      ∧ Float64.eq (.fin 4503599627370496 1075) (.ofInt 9007199254740992) = true
      ∧ Float64.eq (.fin 4503599627370496 1075) (.ofInt 9007199254740993) = false
      ∧ totalBalance pgLarge = .fin 4503599627370498 1075
      ∧ totalBalance (service.TransferAmount pgLarge 1 2 (.ofInt 1)).2 =
          .fin 4503599627370497 1075
      ∧ Float64.eq (totalBalance (service.TransferAmount pgLarge 1 2 (.ofInt 1)).2)
          (totalBalance pgLarge) = false
      ∧ exactTotal (service.TransferAmount pgLarge 1 2 (.ofInt 1)).2 + 2 ^ 1074 =
          exactTotal pgLarge := by
  have hacc : (service.TransferAmount pgLarge 1 2 (.ofInt 1)).2.account =
      [{ Id := 1, Balance := .ofInt 2, CreatedDt := 1 },
       { Id := 2, Balance := .fin 4503599627370496 1075, CreatedDt := 2 }] := by
    decide
  refine ⟨rfl, rfl, by decide, by decide, by simp [UniqueIds, pgLarge], rfl, hacc,
    by decide, by decide, by decide, by decide, by decide, ?_⟩
  unfold exactTotal
  rw [hacc]
  simp only [pgLarge, Float64.ofInt, Float64.units, List.map_cons, List.map_nil, List.sum_cons,
    List.sum_nil]
  have h2 : (2 : ℤ) ^ 1075 = 2 * 2 ^ 1074 := by rw [pow_succ]; ring
  rw [h2]
  ring

/-- Every successful transfer adds exactly two rows at the end of the ledger: the redeem
row (owner `redeemId`, document number `accrId`, amount `-amount`) and then the accrual row
(owner `accrId`, document number `redeemId`, amount `amount`). -/
theorem transfer_ledger_rows (pg : Postgres) (redeemId accrId : Int) (amount : Float64)
    (accs : Account × Account) (pg1 : Postgres)
    (h : service.TransferAmount pg redeemId accrId amount = (.ok accs, pg1)) :
    pg1.fct_transcation =
      (repo.insertTransaction
        (repo.insertTransaction pg redeemId accrId "redeem" (Float64.neg amount))
        accrId redeemId "accrual" amount).fct_transcation := by
  simp only [service, usecase.New, usecase.AccountUseCase.TransferAmount, postgresRepo] at h
  split_ifs at h with h0
  · simp at h
  cases hv : usecase.AccountUseCase.amountValidation amount with
  | some e => rw [hv] at h; simp at h
  | none =>
    rw [hv] at h
    cases hr : usecase.AccountUseCase.idValidation redeemId with
    | some e => rw [hr] at h; simp at h
    | none =>
      rw [hr] at h
      cases ha : usecase.AccountUseCase.idValidation accrId with
      | some e => rw [ha] at h; simp at h
      | none =>
        rw [ha] at h
        simp only [] at h
        rw [repo_TransferAmount_eq] at h
        cases hs1 : repo.selectAccount pg.account redeemId with
        | none => rw [hs1] at h; simp at h
        | some rrow =>
          rw [hs1] at h
          simp only [] at h
          split_ifs at h with h1
          · simp at h
          cases hs2 : repo.selectAccount
              (repo.updateBalance pg.account redeemId (Float64.neg amount)) accrId with
          | none => rw [hs2] at h; simp at h
          | some arow =>
            rw [hs2] at h
            simp only [] at h
            split_ifs at h with h2
            · simp at h
            have := (Prod.mk.inj h).2
            rw [← this]
            simp [repo.insertTransaction]

/-- C5. On the sample store `TransferAmount(1, 2, NaN)` succeeds and appends two ledger rows
whose amounts are NaN and NaN: their sum is NaN, which is not equal to zero. -/
theorem nan_transfer_rows_do_not_cancel :
    (service.TransferAmount pgZero 1 2 Float64.nan).1 =
        .ok ({ Id := 2, Balance := .nan, CreatedDt := 2 },
             { Id := 1, Balance := .nan, CreatedDt := 1 })
      ∧ (service.TransferAmount pgZero 1 2 Float64.nan).2.fct_transcation =
          [{ Id := 1, TransDt := 4, AccountId := 1, DocNum := 2, Type_ := "redeem",
             Amount := .nan },
           { Id := 2, TransDt := 4, AccountId := 2, DocNum := 1, Type_ := "accrual",
             Amount := .nan }]
      ∧ Float64.add Float64.nan Float64.nan = Float64.nan
      ∧ Float64.eq (Float64.add Float64.nan Float64.nan) Float64.zero = false := by
  refine ⟨rfl, ?_, rfl, rfl⟩
  decide

/-- C11. For `id > 0`, over every repository and store state: an amount equal to zero makes
`UpdBalance` fail with the wrapped `ErrorAmountIsZero`, the state is returned as given and
the recording repository logs no call; an amount different from zero, of either sign, passes
validation, the result is the one of the repository's `UpdBalance` on exactly
`(id, -999, amount)`, its error wrapped, and that is the one call the recording repository
logs. -/
theorem updBalance_amount_validation {σ : Type} (uc : usecase.AccountUseCase σ) (s : σ)
    (id : Int) (amount : Float64) (hid : 0 < id) :
    (Float64.eq amount Float64.zero = true →
        uc.UpdBalance s id amount =
          (.error (.wrap "AccountUseCase - UpdBalance - uc.idValidation" ErrorAmountIsZero), s)
        ∧ failsWith (uc.UpdBalance s id amount).1 ErrorAmountIsZero = true
        ∧ ((usecase.New (recording uc.repo)).UpdBalance ([], s) id amount).2 = ([], s))
      ∧ (Float64.eq amount Float64.zero = false →
        uc.UpdBalance s id amount =
          wrapError "AccountUseCase - UpdBalance - uc.repo.UpdBalance"
            (uc.repo.UpdBalance s id (-999) amount)
        ∧ ((usecase.New (recording uc.repo)).UpdBalance ([], s) id amount).2 =
            ([Call.UpdBalance id (-999) amount], (uc.repo.UpdBalance s id (-999) amount).2)) := by
  have hv := idValidation_of_pos id hid
  constructor
  · intro hz
    have h : uc.UpdBalance s id amount =
        (.error (.wrap "AccountUseCase - UpdBalance - uc.idValidation" ErrorAmountIsZero), s) := by
      simp [usecase.AccountUseCase.UpdBalance, hv, hz]
    refine ⟨h, ?_, ?_⟩
    · rw [h]; rfl
    · simp [usecase.AccountUseCase.UpdBalance, usecase.New, hv, hz]
  · intro hz
    constructor
    · simp only [usecase.AccountUseCase.UpdBalance, hv, hz, wrapError]
      rcases uc.repo.UpdBalance s id (-999) amount with ⟨_ | _, _⟩ <;> simp
    · simp only [usecase.AccountUseCase.UpdBalance, usecase.New, hv, hz, recording]
      cases hr : (uc.repo.UpdBalance s id (-999) amount).1 <;> simp [hr]

/-- Witness of C11: account 1 of the sample store, with the amount 0 and with the
amount 25. -/
theorem updBalance_amount_validation_witness :
    (0 : Int) < 1
      ∧ Float64.eq (.ofInt 0) Float64.zero = true
      ∧ service.UpdBalance pgTwo 1 (.ofInt 0) =
          (.error (.wrap "AccountUseCase - UpdBalance - uc.idValidation" ErrorAmountIsZero),
            pgTwo)
      ∧ Float64.eq (.ofInt 25) Float64.zero = false
      ∧ ((usecase.New (recording service.repo)).UpdBalance ([], pgTwo) 1 (.ofInt 25)).2 =
          ([Call.UpdBalance 1 (-999) (.ofInt 25)],
            (service.repo.UpdBalance pgTwo 1 (-999) (.ofInt 25)).2) :=
  ⟨by decide, by decide,
    ((updBalance_amount_validation service pgTwo 1 (.ofInt 0) (by decide)).1 (by decide)).1,
    by decide,
    ((updBalance_amount_validation service pgTwo 1 (.ofInt 25) (by decide)).2 (by decide)).2⟩

theorem selectAccount_none_iff (rows : List Account) (id : Int) :
    repo.selectAccount rows id = none ↔ ∀ a ∈ rows, a.Id ≠ id := by
  simp [repo.selectAccount]

theorem selectAccount_of_unique (rows : List Account) (id : Int) (a : Account)
    (hu : (rows.map Account.Id).Nodup) (ha : a ∈ rows) (hid : a.Id = id) :
    repo.selectAccount rows id = some a := by
  induction rows with
  | nil => cases ha
  | cons x rest ih =>
    have hx : x.Id ∉ rest.map Account.Id := (List.nodup_cons.mp hu).1
    rcases List.mem_cons.mp ha with h | h
    · subst h
      simp [repo.selectAccount, hid]
    · have hne : ¬ x.Id = id := by
        intro e
        exact hx (List.mem_map.mpr ⟨a, h, hid.trans e.symm⟩)
      have := ih (List.nodup_cons.mp hu).2 h
      simp only [repo.selectAccount] at this
      simp [repo.selectAccount, hne, this]

/-- C13. For `id > 0`: if an account with that identifier exists, `GetById` returns a row of
table `account` with that identifier, as stored (identifiers being unique, the row of that
account); if none exists, it fails with the wrapped `ErrNoRows`, the not-found error of the
store; in both cases the store is returned as it was. -/
theorem getById_found_or_not_found (pg : Postgres) (id : Int) (hid : 0 < id) :
    ((∃ a ∈ pg.account, a.Id = id) →
        ∃ acc ∈ pg.account, acc.Id = id ∧ service.GetById pg id = (.ok acc, pg))
      ∧ (UniqueIds pg → ∀ a ∈ pg.account, a.Id = id → service.GetById pg id = (.ok a, pg))
      ∧ ((∀ a ∈ pg.account, a.Id ≠ id) →
        service.GetById pg id =
          (.error (.wrap "AccountUseCase - GetById - uc.repo.GetById"
            (.wrap "AccountRepo - GetByID - r.Pool.QueryRow" ErrNoRows)), pg)
        ∧ failsWith (service.GetById pg id).1 ErrNoRows = true)
      ∧ (service.GetById pg id).2 = pg := by
  have hv := idValidation_of_pos id hid
  have hsome : ∀ acc, repo.selectAccount pg.account id = some acc →
      service.GetById pg id = (.ok acc, pg) := by
    intro acc h
    simp [service, usecase.New, usecase.AccountUseCase.GetById, hv, postgresRepo,
      repo.AccountRepo.GetById, h]
  have hnone : repo.selectAccount pg.account id = none →
      service.GetById pg id =
        (.error (.wrap "AccountUseCase - GetById - uc.repo.GetById"
          (.wrap "AccountRepo - GetByID - r.Pool.QueryRow" ErrNoRows)), pg) := by
    intro h
    simp [service, usecase.New, usecase.AccountUseCase.GetById, hv, postgresRepo,
      repo.AccountRepo.GetById, h]
  refine ⟨?_, ?_, ?_, ?_⟩
  · rintro ⟨a, ha, hida⟩
    cases h : repo.selectAccount pg.account id with
    | none => exact absurd hida ((selectAccount_none_iff _ _).mp h a ha)
    | some acc => exact ⟨acc, selectAccount_mem h, selectAccount_id h, hsome acc h⟩
  · intro hu a ha hida
    exact hsome a (selectAccount_of_unique _ _ _ hu ha hida)
  · intro h
    have hn := hnone ((selectAccount_none_iff _ _).mpr h)
    refine ⟨hn, ?_⟩
    rw [hn]; rfl
  · cases h : repo.selectAccount pg.account id with
    | none => rw [hnone h]
    | some acc => rw [hsome acc h]

/-- Witness of C13: account 2 of the sample store is found. -/
theorem getById_found_or_not_found_witness :
    (0 : Int) < 2 ∧ UniqueIds pgTwo
      ∧ service.GetById pgTwo 2 = (.ok { Id := 2, Balance := .ofInt 4, CreatedDt := 8 }, pgTwo) :=
  have hu : UniqueIds pgTwo := by simp [UniqueIds, pgTwo]
  ⟨by decide, hu,
    (getById_found_or_not_found pgTwo 2 (by decide)).2.1 hu
      { Id := 2, Balance := .ofInt 4, CreatedDt := 8 } (by simp [pgTwo]) rfl⟩

theorem le_foldl_max (ids : List Int) (init : Int) :
    init ≤ ids.foldl max init ∧ ∀ x ∈ ids, x ≤ ids.foldl max init := by
  induction ids generalizing init with
  | nil => simp
  | cons y rest ih =>
    obtain ⟨h1, h2⟩ := ih (max init y)
    refine ⟨le_trans (le_max_left _ _) h1, ?_⟩
    intro x hx
    rcases List.mem_cons.mp hx with h | h
    · subst h
      exact le_trans (le_max_right _ _) h1
    · exact h2 x h

theorem defaultId_pos (ids : List Int) : 0 < defaultId ids := by
  have := (le_foldl_max ids 0).1
  unfold defaultId
  omega

theorem defaultId_fresh (ids : List Int) : defaultId ids ∉ ids := by
  intro h
  have := (le_foldl_max ids 0).2 _ h
  unfold defaultId at this
  omega

/-- C14. In every state `Create` succeeds: it returns an account of balance 0 whose
identifier is positive and is the identifier of no existing account, appends exactly that
row to table `account`, so that every other identifier gives the row it gave before, and
leaves the ledger as it was. -/
theorem create_new_account (pg : Postgres) :
    service.Create pg =
        (.ok { Id := defaultId (pg.account.map Account.Id), Balance := Float64.zero,
               CreatedDt := pg.now },
          { account := pg.account ++
              [{ Id := defaultId (pg.account.map Account.Id), Balance := Float64.zero,
                 CreatedDt := pg.now }]
            fct_transcation := pg.fct_transcation
            now := pg.now
            orderByOther := pg.orderByOther })
      ∧ isOk (service.Create pg).1 = true
      ∧ 0 < defaultId (pg.account.map Account.Id)
      ∧ (∀ a ∈ pg.account, a.Id ≠ defaultId (pg.account.map Account.Id))
      ∧ (∀ a ∈ pg.account, a ∈ (service.Create pg).2.account)
      ∧ (∀ j : Int, j ≠ defaultId (pg.account.map Account.Id) →
          repo.selectAccount (service.Create pg).2.account j = repo.selectAccount pg.account j)
      ∧ (service.Create pg).2.account.length = pg.account.length + 1
      ∧ (service.Create pg).2.fct_transcation = pg.fct_transcation
      ∧ (UniqueIds pg → UniqueIds (service.Create pg).2) := by
  have h : service.Create pg =
      (.ok { Id := defaultId (pg.account.map Account.Id), Balance := Float64.zero,
             CreatedDt := pg.now },
        { account := pg.account ++
            [{ Id := defaultId (pg.account.map Account.Id), Balance := Float64.zero,
               CreatedDt := pg.now }]
          fct_transcation := pg.fct_transcation
          now := pg.now
          orderByOther := pg.orderByOther }) := rfl
  have hfresh := defaultId_fresh (pg.account.map Account.Id)
  refine ⟨h, ?_, defaultId_pos _, ?_, ?_, ?_, ?_, ?_, ?_⟩
  · rw [h]; rfl
  · intro a ha e
    exact hfresh (e ▸ List.mem_map.mpr ⟨a, ha, rfl⟩)
  · intro a ha
    rw [h]
    exact List.mem_append_left _ ha
  · intro j hj
    rw [h]
    simp only [repo.selectAccount, List.find?_append]
    cases hf : List.find? (fun a => decide (a.Id = j)) pg.account with
    | some a => simp
    | none => simp [Ne.symm hj]
  · rw [h]; simp
  · rw [h]
  · intro hu
    rw [h]
    simp only [UniqueIds, List.map_append, List.map_cons, List.map_nil] at hu ⊢
    refine List.nodup_append.mpr ⟨hu, by simp, ?_⟩
    intro x hx hx2
    simp only [List.mem_singleton] at hx2
    exact hfresh (hx2 ▸ hx)

/-- C15. For `id > 0`, over every repository, store state, limit and offset: `GetHistory`
hands the call to the repository with the column `trans_dt` when the sort text is empty and
with the sort text itself otherwise, and with the direction descending exactly when the
lower-cased flag is the text `true` (so ascending for the empty flag); the result is the
repository's, its error wrapped. -/
theorem getHistory_sort_and_direction {σ : Type} (uc : usecase.AccountUseCase σ) (s : σ)
    (id : Int) (limit offset : Nat) (sort isDecreasingValue : String) (hid : 0 < id) :
    (sort = "" →
        uc.GetHistory s id limit offset sort isDecreasingValue =
          wrapError "AccountUseCase - GetHistory - uc.repo.GetHistory"
            (uc.repo.GetHistory s id limit offset "trans_dt"
              (decide (strings.ToLower isDecreasingValue = "true")))
        ∧ ((usecase.New (recording uc.repo)).GetHistory ([], s) id limit offset sort
              isDecreasingValue).2.1 =
            [Call.GetHistory id limit offset "trans_dt"
              (decide (strings.ToLower isDecreasingValue = "true"))])
      ∧ (sort ≠ "" →
        uc.GetHistory s id limit offset sort isDecreasingValue =
          wrapError "AccountUseCase - GetHistory - uc.repo.GetHistory"
            (uc.repo.GetHistory s id limit offset sort
              (decide (strings.ToLower isDecreasingValue = "true")))
        ∧ ((usecase.New (recording uc.repo)).GetHistory ([], s) id limit offset sort
              isDecreasingValue).2.1 =
            [Call.GetHistory id limit offset sort
              (decide (strings.ToLower isDecreasingValue = "true"))])
      ∧ decide (strings.ToLower "" = "true") = false := by
  have hv := idValidation_of_pos id hid
  refine ⟨?_, ?_, by decide⟩
  · intro h0
    subst h0
    constructor
    · simp only [usecase.AccountUseCase.GetHistory, hv, wrapError, if_true]
      rcases uc.repo.GetHistory s id limit offset "trans_dt"
        (decide (strings.ToLower isDecreasingValue = "true")) with ⟨_ | _, _⟩ <;> rfl
    · simp only [usecase.AccountUseCase.GetHistory, usecase.New, hv, recording, if_true]
      cases hr : (uc.repo.GetHistory s id limit offset "trans_dt"
        (decide (strings.ToLower isDecreasingValue = "true"))).1 <;> simp [hr]
  · intro h0
    constructor
    · simp only [usecase.AccountUseCase.GetHistory, hv, wrapError, if_neg h0]
      rcases uc.repo.GetHistory s id limit offset sort
        (decide (strings.ToLower isDecreasingValue = "true")) with ⟨_ | _, _⟩ <;> rfl
    · simp only [usecase.AccountUseCase.GetHistory, usecase.New, hv, recording, if_neg h0]
      cases hr : (uc.repo.GetHistory s id limit offset sort
        (decide (strings.ToLower isDecreasingValue = "true"))).1 <;> simp [hr]

/-- Witness of C15: the history of account 1 with no sort text and the flag `TRUE`: the
store is asked for `trans_dt`, descending. -/
theorem getHistory_sort_and_direction_witness :
    (0 : Int) < 1
      ∧ ((usecase.New (recording service.repo)).GetHistory ([], pgHist) 1 3 0 "" "TRUE").2.1 =
          [Call.GetHistory 1 3 0 "trans_dt" (decide (strings.ToLower "TRUE" = "true"))]
      ∧ decide (strings.ToLower "TRUE" = "true") = true :=
  ⟨by decide,
    ((getHistory_sort_and_direction service pgHist 1 3 0 "" "TRUE" (by decide)).1 rfl).2,
    by decide⟩

/-- C16, counterexample. The sort text `id` is not empty and not in the allow-list
(timestamp, amount, kind), yet the history of account 1 asked with it is delivered, not
refused: the three rows of account 1, ordered by `id`; and the text `id` is what the store's
`GetHistory` receives for its `ORDER BY`. -/
theorem getHistory_accepts_column_outside_allow_list :
    "id" ≠ "" ∧ "id" ∉ sortAllowList
      ∧ isOk (service.GetHistory pgHist 1 5 0 "id" "").1 = true
      ∧ (service.GetHistory pgHist 1 5 0 "id" "").1 =
          .ok [{ Id := 1, TransDt := 10, AccountId := 1, DocNum := -999, Type_ := "accrual",
                 Amount := .ofInt 35 },
               { Id := 3, TransDt := 12, AccountId := 1, DocNum := -999, Type_ := "redeem",
                 Amount := .ofInt (-5) },
               { Id := 5, TransDt := 13, AccountId := 1, DocNum := 2, Type_ := "accrual",
                 Amount := .ofInt 1 }]
      ∧ ((usecase.New (recording postgresRepo)).GetHistory ([], pgHist) 1 5 0 "id" "").2.1 =
          [Call.GetHistory 1 5 0 "id" false] := by
  refine ⟨by decide, by decide, ?_, ?_, ?_⟩
  · decide
  · rfl
  · decide

/-- C16, amended. `GetHistory` has no check of the sort column: for `id > 0` and every sort
text that is not empty, in the allow-list or not, the text goes unchanged to the
repository's `GetHistory`, which is called exactly once, and the result is the
repository's, its error wrapped. -/
theorem getHistory_passes_any_sort_text {σ : Type} (uc : usecase.AccountUseCase σ) (s : σ)
    (id : Int) (limit offset : Nat) (sort isDecreasingValue : String)
    (hid : 0 < id) (hsort : sort ≠ "") :
    uc.GetHistory s id limit offset sort isDecreasingValue =
        wrapError "AccountUseCase - GetHistory - uc.repo.GetHistory"
          (uc.repo.GetHistory s id limit offset sort
            (decide (strings.ToLower isDecreasingValue = "true")))
      ∧ ((usecase.New (recording uc.repo)).GetHistory ([], s) id limit offset sort
            isDecreasingValue).2.1 =
          [Call.GetHistory id limit offset sort
            (decide (strings.ToLower isDecreasingValue = "true"))] := by
  have hv := idValidation_of_pos id hid
  refine ⟨?_, ?_⟩
  · simp only [usecase.AccountUseCase.GetHistory, hv, wrapError, if_neg hsort]
    rcases uc.repo.GetHistory s id limit offset sort
      (decide (strings.ToLower isDecreasingValue = "true")) with ⟨_ | _, _⟩ <;> rfl
  · simp only [usecase.AccountUseCase.GetHistory, usecase.New, hv, recording, if_neg hsort]
    cases hr : (uc.repo.GetHistory s id limit offset sort
      (decide (strings.ToLower isDecreasingValue = "true"))).1 <;> simp [hr]

/-- Witness of C16, amended: the sort text `no_such_column` for the history of account 1. -/
theorem getHistory_passes_any_sort_text_witness :
    (0 : Int) < 1 ∧ "no_such_column" ≠ ""
      ∧ ((usecase.New (recording service.repo)).GetHistory ([], pgHist) 1 5 0 "no_such_column"
            "").2.1 =
          [Call.GetHistory 1 5 0 "no_such_column" false] :=
  ⟨by decide, by decide,
    (getHistory_passes_any_sort_text service pgHist 1 5 0 "no_such_column" ""
      (by decide) (by decide)).2⟩

theorem failsWith_TransferAmount_of_valid (pg : Postgres) (redeemId accrId : Int)
    (amount : Float64) (hne : accrId ≠ redeemId)
    (hv : usecase.AccountUseCase.amountValidation amount = none) (hr : 0 < redeemId)
    (ha : 0 < accrId) (msg : String) (h1 : "no rows in result set" ≠ msg)
    (h2 : "not enough money" ≠ msg) :
    failsWith (service.TransferAmount pg redeemId accrId amount).1 (.new msg) = false := by
  simp only [service, usecase.New, usecase.AccountUseCase.TransferAmount, postgresRepo, hne,
    hv, idValidation_of_pos _ hr, idValidation_of_pos _ ha, repo_TransferAmount_eq, if_false]
  cases repo.selectAccount pg.account redeemId with
  | none => simp [failsWith, GoError.Is, ErrNoRows, h1]
  | some rrow =>
    simp only []
    split_ifs
    · simp [failsWith, GoError.Is, ErrNotEnoughMoney, h2]
    · cases repo.selectAccount
          (repo.updateBalance pg.account redeemId (Float64.neg amount)) accrId with
      | none => simp [failsWith, GoError.Is, ErrNoRows, h1]
      | some arow =>
        simp only []
        split_ifs
        · simp [failsWith, GoError.Is, ErrNotEnoughMoney, h2]
        · simp [failsWith]

theorem failsWith_UpdBalance_of_valid (pg : Postgres) (id : Int) (amount : Float64)
    (h : 0 < id) (hz : Float64.eq amount Float64.zero = false) (msg : String)
    (h1 : "no rows in result set" ≠ msg) (h2 : "not enough money" ≠ msg)
    (h3 : "amount in transaction is zero" ≠ msg) :
    failsWith (service.UpdBalance pg id amount).1 (.new msg) = false := by
  simp only [service, usecase.New, usecase.AccountUseCase.UpdBalance, idValidation_of_pos _ h,
    postgresRepo, repo_UpdBalance_eq, hz, Bool.false_eq_true, if_false]
  unfold repo.selectTransactionType
  split_ifs
  · cases repo.selectAccount pg.account id with
    | none => simp [failsWith, GoError.Is, ErrNoRows, h1]
    | some row =>
      simp only []
      split_ifs <;> simp [failsWith, GoError.Is, ErrNotEnoughMoney, h2]
  · cases repo.selectAccount pg.account id with
    | none => simp [failsWith, GoError.Is, ErrNoRows, h1]
    | some row =>
      simp only []
      split_ifs <;> simp [failsWith, GoError.Is, ErrNotEnoughMoney, h2]
  · simp [failsWith, GoError.Is, h3]

theorem recording_GetById_fst {σ : Type} (r : usecase.AccountRepo σ) (log : List Call) (s : σ)
    (id : Int) :
    ((usecase.New (recording r)).GetById (log, s) id).1 = ((usecase.New r).GetById s id).1 := by
  simp only [usecase.AccountUseCase.GetById, usecase.New, recording]
  cases usecase.AccountUseCase.idValidation id with
  | some e => rfl
  | none =>
    simp only []
    cases hr : (r.GetById s id).1 <;> rcases hq : r.GetById s id with ⟨_ | _, _⟩ <;>
      simp_all

theorem recording_UpdBalance_fst {σ : Type} (r : usecase.AccountRepo σ) (log : List Call)
    (s : σ) (id : Int) (amount : Float64) :
    ((usecase.New (recording r)).UpdBalance (log, s) id amount).1 =
      ((usecase.New r).UpdBalance s id amount).1 := by
  simp only [usecase.AccountUseCase.UpdBalance, usecase.New, recording]
  cases usecase.AccountUseCase.idValidation id with
  | some e => rfl
  | none =>
    simp only []
    split_ifs
    · rfl
    · cases hr : (r.UpdBalance s id (-999) amount).1 <;>
        rcases hq : r.UpdBalance s id (-999) amount with ⟨_ | _, _⟩ <;> simp_all

theorem recording_TransferAmount_fst {σ : Type} (r : usecase.AccountRepo σ) (log : List Call)
    (s : σ) (redeemId accrId : Int) (amount : Float64) :
    ((usecase.New (recording r)).TransferAmount (log, s) redeemId accrId amount).1 =
      ((usecase.New r).TransferAmount s redeemId accrId amount).1 := by
  simp only [usecase.AccountUseCase.TransferAmount, usecase.New, recording]
  split_ifs
  · rfl
  · cases usecase.AccountUseCase.amountValidation amount with
    | some e => rfl
    | none =>
      cases usecase.AccountUseCase.idValidation redeemId with
      | some e => rfl
      | none =>
        cases usecase.AccountUseCase.idValidation accrId with
        | some e => rfl
        | none =>
          simp only []
          cases hr : (r.TransferAmount s redeemId accrId amount).1 <;>
            rcases hq : r.TransferAmount s redeemId accrId amount with ⟨_ | _, _⟩ <;> simp_all

theorem recording_GetHistory_fst {σ : Type} (r : usecase.AccountRepo σ) (log : List Call)
    (s : σ) (id : Int) (limit offset : Nat) (sort isDecreasingValue : String) :
    ((usecase.New (recording r)).GetHistory (log, s) id limit offset sort isDecreasingValue).1 =
      ((usecase.New r).GetHistory s id limit offset sort isDecreasingValue).1 := by
  simp only [usecase.AccountUseCase.GetHistory, usecase.New, recording]
  cases usecase.AccountUseCase.idValidation id with
  | some e => rfl
  | none =>
    simp only []
    cases hr : (r.GetHistory s id limit offset (if sort = "" then "trans_dt" else sort)
        (decide (strings.ToLower isDecreasingValue = "true"))).1 <;>
      rcases hq : r.GetHistory s id limit offset (if sort = "" then "trans_dt" else sort)
        (decide (strings.ToLower isDecreasingValue = "true")) with ⟨_ | _, _⟩ <;> simp_all

theorem validationFailure_GetById_of_pos (pg : Postgres) (id : Int) (h : 0 < id) :
    validationFailure (service.GetById pg id).1 = false := by
  simp [validationFailure, ErrorIdIsNegative, ErrorIdIsZero, ErrorAmountIsNegative,
    ErrorAmountIsZero, ErrorSameRedeemAccrId, failsWith_GetById_of_pos pg id h]

theorem validationFailure_UpdBalance_of_valid (pg : Postgres) (id : Int) (amount : Float64)
    (h : 0 < id) (hz : Float64.eq amount Float64.zero = false) :
    validationFailure (service.UpdBalance pg id amount).1 = false := by
  simp [validationFailure, ErrorIdIsNegative, ErrorIdIsZero, ErrorAmountIsNegative,
    ErrorAmountIsZero, ErrorSameRedeemAccrId, failsWith_UpdBalance_of_valid pg id amount h hz]

theorem validationFailure_TransferAmount_of_valid (pg : Postgres) (redeemId accrId : Int)
    (amount : Float64) (hne : accrId ≠ redeemId)
    (hv : usecase.AccountUseCase.amountValidation amount = none) (hr : 0 < redeemId)
    (ha : 0 < accrId) :
    validationFailure (service.TransferAmount pg redeemId accrId amount).1 = false := by
  simp [validationFailure, ErrorIdIsNegative, ErrorIdIsZero, ErrorAmountIsNegative,
    ErrorAmountIsZero, ErrorSameRedeemAccrId,
    failsWith_TransferAmount_of_valid pg redeemId accrId amount hne hv hr ha]

theorem validationFailure_GetHistory_of_pos (pg : Postgres) (id : Int) (limit offset : Nat)
    (sort isDecreasingValue : String) (h : 0 < id) :
    validationFailure (service.GetHistory pg id limit offset sort isDecreasingValue).1
      = false := by
  simp [validationFailure, ErrorIdIsNegative, ErrorIdIsZero, ErrorAmountIsNegative,
    ErrorAmountIsZero, ErrorSameRedeemAccrId,
    failsWith_GetHistory_of_pos pg id limit offset sort isDecreasingValue h]

/-- C12. For `GetById`, `UpdBalance`, `TransferAmount` and `GetHistory` of the service on
the store, behind the recording repository, and for every input: if the call returns an
error of the service's validation (an identifier, amount or same-account sentinel), the log
of repository calls is still empty and the store is the one the call was given. -/
theorem validation_failure_leaves_store_untouched (pg : Postgres) (id redeemId accrId : Int)
    (amount : Float64) (limit offset : Nat) (sort isDecreasingValue : String) :
    (validationFailure ((usecase.New (recording postgresRepo)).GetById ([], pg) id).1 = true →
        ((usecase.New (recording postgresRepo)).GetById ([], pg) id).2 = ([], pg))
      ∧ (validationFailure
            ((usecase.New (recording postgresRepo)).UpdBalance ([], pg) id amount).1 = true →
          ((usecase.New (recording postgresRepo)).UpdBalance ([], pg) id amount).2 = ([], pg))
      ∧ (validationFailure
            ((usecase.New (recording postgresRepo)).TransferAmount ([], pg) redeemId accrId
              amount).1 = true →
          ((usecase.New (recording postgresRepo)).TransferAmount ([], pg) redeemId accrId
            amount).2 = ([], pg))
      ∧ (validationFailure
            ((usecase.New (recording postgresRepo)).GetHistory ([], pg) id limit offset sort
              isDecreasingValue).1 = true →
          ((usecase.New (recording postgresRepo)).GetHistory ([], pg) id limit offset sort
            isDecreasingValue).2 = ([], pg)) := by
  refine ⟨?_, ?_, ?_, ?_⟩
  · intro h
    rcases lt_trichotomy id 0 with hid | hid | hid
    · simp [usecase.AccountUseCase.GetById, usecase.New, idValidation_of_neg _ hid]
    · subst hid
      simp [usecase.AccountUseCase.GetById, usecase.New, idValidation_zero]
    · rw [recording_GetById_fst] at h
      have := validationFailure_GetById_of_pos pg id hid
      rw [service] at this
      rw [this] at h
      cases h
  · intro h
    rcases lt_trichotomy id 0 with hid | hid | hid
    · simp [usecase.AccountUseCase.UpdBalance, usecase.New, idValidation_of_neg _ hid]
    · subst hid
      simp [usecase.AccountUseCase.UpdBalance, usecase.New, idValidation_zero]
    · cases hz : Float64.eq amount Float64.zero with
      | true =>
        simp [usecase.AccountUseCase.UpdBalance, usecase.New, idValidation_of_pos _ hid, hz]
      | false =>
        rw [recording_UpdBalance_fst] at h
        have := validationFailure_UpdBalance_of_valid pg id amount hid hz
        rw [service] at this
        rw [this] at h
        cases h
  · intro h
    by_cases hne : accrId = redeemId
    · simp [usecase.AccountUseCase.TransferAmount, usecase.New, hne]
    · cases hv : usecase.AccountUseCase.amountValidation amount with
      | some e => simp [usecase.AccountUseCase.TransferAmount, usecase.New, hne, hv]
      | none =>
        rcases lt_trichotomy redeemId 0 with hr | hr | hr
        · simp [usecase.AccountUseCase.TransferAmount, usecase.New, hne, hv,
            idValidation_of_neg _ hr]
        · subst hr
          simp [usecase.AccountUseCase.TransferAmount, usecase.New, hne, hv, idValidation_zero]
        · rcases lt_trichotomy accrId 0 with ha | ha | ha
          · simp [usecase.AccountUseCase.TransferAmount, usecase.New, hne, hv,
              idValidation_of_pos _ hr, idValidation_of_neg _ ha]
          · subst ha
            simp [usecase.AccountUseCase.TransferAmount, usecase.New, hv,
              idValidation_of_pos _ hr, idValidation_zero, hr.ne]
          · rw [recording_TransferAmount_fst] at h
            have := validationFailure_TransferAmount_of_valid pg redeemId accrId amount hne hv
              hr ha
            rw [service] at this
            rw [this] at h
            cases h
  · intro h
    rcases lt_trichotomy id 0 with hid | hid | hid
    · simp [usecase.AccountUseCase.GetHistory, usecase.New, idValidation_of_neg _ hid]
    · subst hid
      simp [usecase.AccountUseCase.GetHistory, usecase.New, idValidation_zero]
    · rw [recording_GetHistory_fst] at h
      have := validationFailure_GetHistory_of_pos pg id limit offset sort isDecreasingValue hid
      rw [service] at this
      rw [this] at h
      cases h

/-- Witness of C12: `GetById(0)` on the sample store fails with an identifier error, logs no
call and returns the store. -/
theorem validation_failure_leaves_store_untouched_witness :
    validationFailure ((usecase.New (recording postgresRepo)).GetById ([], pgTwo) 0).1 = true
      ∧ ((usecase.New (recording postgresRepo)).GetById ([], pgTwo) 0).2 = ([], pgTwo) :=
  ⟨by decide,
    (validation_failure_leaves_store_untouched pgTwo 0 0 0 Float64.nan 0 0 "" "").1
      (by decide)⟩

/-- C19. On the sample store `TransferAmount(1, 2, NaN)` succeeds and writes a row of kind
`redeem` and a row of kind `accrual`, both with the amount NaN, which is neither `< 0` nor
`> 0`. `UpdBalance` refuses the same amount, because `selectTransactionType` returns its
error for NaN; the transfer never asks `selectTransactionType`. -/
theorem nan_transfer_kind_without_sign :
    isOk (service.TransferAmount pgZero 1 2 Float64.nan).1 = true
      ∧ (service.TransferAmount pgZero 1 2 Float64.nan).2.fct_transcation.map
          (fun t => (t.Type_, t.Amount)) = [("redeem", Float64.nan), ("accrual", Float64.nan)]
      ∧ Float64.lt Float64.zero Float64.nan = false
      ∧ Float64.lt Float64.nan Float64.zero = false
      ∧ repo.selectTransactionType Float64.nan = .error (.new "amount in transaction is zero")
      ∧ isOk (service.UpdBalance pgZero 1 Float64.nan).1 = false
      ∧ (service.UpdBalance pgZero 1 Float64.nan).2 = pgZero := by
  refine ⟨rfl, ?_, rfl, rfl, rfl, rfl, rfl⟩
  decide

theorem service_UpdBalance_ledger (pg : Postgres) (id : Int) (amount : Float64) :
    ∃ added : List Transaction,
      (service.UpdBalance pg id amount).2.fct_transcation = pg.fct_transcation ++ added
        ∧ added.length = if isOk (service.UpdBalance pg id amount).1 then 1 else 0 := by
  cases hval : usecase.AccountUseCase.idValidation id with
  | some e =>
    exact ⟨[], by simp [service, usecase.New, usecase.AccountUseCase.UpdBalance, hval, isOk]⟩
  | none =>
    cases hz : Float64.eq amount Float64.zero with
    | true =>
      exact ⟨[], by
        simp [service, usecase.New, usecase.AccountUseCase.UpdBalance, hval, hz, isOk]⟩
    | false =>
      cases ht : repo.selectTransactionType amount with
      | error e =>
        exact ⟨[], by
          simp [service, usecase.New, usecase.AccountUseCase.UpdBalance, hval, hz, isOk,
            postgresRepo, repo_UpdBalance_eq, ht]⟩
      | ok transType =>
        cases hs : repo.selectAccount pg.account id with
        | none =>
          exact ⟨[], by
            simp [service, usecase.New, usecase.AccountUseCase.UpdBalance, hval, hz, isOk,
              postgresRepo, repo_UpdBalance_eq, ht, hs]⟩
        | some row =>
          cases hg : Float64.lt (Float64.add row.Balance amount) Float64.zero with
          | true =>
            exact ⟨[], by
              simp [service, usecase.New, usecase.AccountUseCase.UpdBalance, hval, hz, isOk,
                postgresRepo, repo_UpdBalance_eq, ht, hs, hg]⟩
          | false =>
            exact ⟨[{ Id := defaultId (pg.fct_transcation.map Transaction.Id)
                      TransDt := pg.now
                      AccountId := id
                      DocNum := -999
                      Type_ := transType
                      Amount := amount }], by
              simp [service, usecase.New, usecase.AccountUseCase.UpdBalance, hval, hz, isOk,
                postgresRepo, repo_UpdBalance_eq, ht, hs, hg, repo.insertTransaction]⟩

theorem service_TransferAmount_ledger (pg : Postgres) (redeemId accrId : Int)
    (amount : Float64) :
    ∃ added : List Transaction,
      (service.TransferAmount pg redeemId accrId amount).2.fct_transcation =
          pg.fct_transcation ++ added
        ∧ added.length =
          if isOk (service.TransferAmount pg redeemId accrId amount).1 then 2 else 0 := by
  rcases h : service.TransferAmount pg redeemId accrId amount with ⟨r, pg1⟩
  cases r with
  | error e =>
    have := service_TransferAmount_error_state pg redeemId accrId amount e pg1 h
    exact ⟨[], by simp [isOk, this]⟩
  | ok accs =>
    have := transfer_ledger_rows pg redeemId accrId amount accs pg1 h
    exact ⟨_, by simp only [this, repo.insertTransaction, List.append_assoc]; rfl,
      by simp [isOk]⟩

/-- C20. The ledger only grows at its end: for every state and every input, `Create`,
`GetById` and `GetHistory` leave the ledger as it was; after `UpdBalance` the ledger is the
old one followed by exactly 1 row if the call succeeded and by none if it failed; after
`TransferAmount` it is the old one followed by exactly 2 rows if the call succeeded and by
none if it failed. -/
theorem ledger_append_only (pg : Postgres) (id redeemId accrId : Int) (amount : Float64)
    (limit offset : Nat) (sort isDecreasingValue : String) :
    (service.Create pg).2.fct_transcation = pg.fct_transcation
      ∧ (service.GetById pg id).2.fct_transcation = pg.fct_transcation
      ∧ (service.GetHistory pg id limit offset sort isDecreasingValue).2.fct_transcation =
          pg.fct_transcation
      ∧ (∃ added : List Transaction,
          (service.UpdBalance pg id amount).2.fct_transcation = pg.fct_transcation ++ added
            ∧ added.length = if isOk (service.UpdBalance pg id amount).1 then 1 else 0)
      ∧ (∃ added : List Transaction,
          (service.TransferAmount pg redeemId accrId amount).2.fct_transcation =
              pg.fct_transcation ++ added
            ∧ added.length =
              if isOk (service.TransferAmount pg redeemId accrId amount).1 then 2 else 0) := by
  refine ⟨rfl, ?_, ?_, service_UpdBalance_ledger pg id amount,
    service_TransferAmount_ledger pg redeemId accrId amount⟩
  · simp only [service, usecase.New, usecase.AccountUseCase.GetById, postgresRepo,
      repo.AccountRepo.GetById]
    cases usecase.AccountUseCase.idValidation id with
    | some e => rfl
    | none => cases repo.selectAccount pg.account id <;> rfl
  · simp only [service, usecase.New, usecase.AccountUseCase.GetHistory, postgresRepo,
      repo.AccountRepo.GetHistory]
    cases usecase.AccountUseCase.idValidation id with
    | some e => rfl
    | none =>
      cases repo.orderBy (if sort = "" then "trans_dt" else sort) with
      | some le => rfl
      | none =>
        simp only []
        cases pg.orderByOther (repo.orderByPred (if sort = "" then "trans_dt" else sort)
          (decide (strings.ToLower isDecreasingValue = "true"))) <;> rfl

theorem textLe_total (a b : List Char) : textLe a b = true ∨ textLe b a = true := by
  induction a generalizing b with
  | nil => left; simp [textLe]
  | cons x xs ih =>
    cases b with
    | nil => right; simp [textLe]
    | cons y ys =>
      simp only [textLe]
      by_cases h1 : x.toNat < y.toNat
      · left; simp [h1]
      · by_cases h2 : y.toNat < x.toNat
        · right; simp [h2]
        · simp only [h1, h2, if_false]
          exact ih ys

theorem textLe_trans (a b c : List Char) (h1 : textLe a b = true) (h2 : textLe b c = true) :
    textLe a c = true := by
  induction a generalizing b c with
  | nil => simp [textLe]
  | cons x xs ih =>
    cases b with
    | nil => simp [textLe] at h1
    | cons y ys =>
      cases c with
      | nil => simp [textLe] at h2
      | cons z zs =>
        simp only [textLe] at h1 h2 ⊢
        by_cases hxy : x.toNat < y.toNat
        · by_cases hyz : y.toNat < z.toNat
          · have : x.toNat < z.toNat := lt_trans hxy hyz
            simp [this]
          · by_cases hzy : z.toNat < y.toNat
            · simp [hyz, hzy] at h2
            · have : x.toNat < z.toNat := by omega
              simp [this]
        · by_cases hyx : y.toNat < x.toNat
          · simp [hxy, hyx] at h1
          · simp only [hxy, hyx, if_false] at h1
            by_cases hyz : y.toNat < z.toNat
            · have : x.toNat < z.toNat := by omega
              simp [this]
            · by_cases hzy : z.toNat < y.toNat
              · simp [hyz, hzy] at h2
              · simp only [hyz, hzy, if_false] at h2
                have e1 : ¬ x.toNat < z.toNat := by omega
                have e2 : ¬ z.toNat < x.toNat := by omega
                simp only [e1, e2, if_false]
                exact ih ys zs h1 h2

theorem Float64.aligned_le_iff (m1 m2 : ℤ) (e1 e2 : ℕ) :
    m1 * 2 ^ (e1 - min e1 e2) ≤ m2 * 2 ^ (e2 - min e1 e2) ↔ m1 * 2 ^ e1 ≤ m2 * 2 ^ e2 := by
  have hk : (0 : ℤ) < 2 ^ (min e1 e2) := by positivity
  have h1 : (2 : ℤ) ^ e1 = 2 ^ (e1 - min e1 e2) * 2 ^ (min e1 e2) := by
    rw [← pow_add, Nat.sub_add_cancel (min_le_left e1 e2)]
  have h2 : (2 : ℤ) ^ e2 = 2 ^ (e2 - min e1 e2) * 2 ^ (min e1 e2) := by
    rw [← pow_add, Nat.sub_add_cancel (min_le_right e1 e2)]
  rw [h1, h2, ← mul_assoc, ← mul_assoc]
  exact (mul_le_mul_right hk).symm

theorem Float64.sqlLe_total (a b : Float64) :
    Float64.sqlLe a b = true ∨ Float64.sqlLe b a = true := by
  cases a <;> cases b <;> simp [Float64.sqlLe]
  rw [Float64.aligned_le_iff, Float64.aligned_le_iff]
  exact le_total _ _

theorem Float64.sqlLe_trans (a b c : Float64) (h1 : Float64.sqlLe a b = true)
    (h2 : Float64.sqlLe b c = true) : Float64.sqlLe a c = true := by
  cases a <;> cases b <;> cases c <;> simp_all [Float64.sqlLe]
  rw [Float64.aligned_le_iff] at h1 h2 ⊢
  exact le_trans h1 h2

theorem orderBy_total_trans (sort : String) (le : Transaction → Transaction → Bool)
    (h : repo.orderBy sort = some le) :
    (∀ a b, le a b = true ∨ le b a = true)
      ∧ (∀ a b c, le a b = true → le b c = true → le a c = true) := by
  unfold repo.orderBy at h
  split_ifs at h <;> cases h
  · exact ⟨fun a b => by simpa using le_total a.Id b.Id,
      fun a b c h1 h2 => by simp at h1 h2 ⊢; exact le_trans h1 h2⟩
  · exact ⟨fun a b => by simpa using le_total a.TransDt b.TransDt,
      fun a b c h1 h2 => by simp at h1 h2 ⊢; exact le_trans h1 h2⟩
  · exact ⟨fun a b => by simpa using le_total a.AccountId b.AccountId,
      fun a b c h1 h2 => by simp at h1 h2 ⊢; exact le_trans h1 h2⟩
  · exact ⟨fun a b => by simpa using le_total a.DocNum b.DocNum,
      fun a b c h1 h2 => by simp at h1 h2 ⊢; exact le_trans h1 h2⟩
  · exact ⟨fun a b => textLe_total _ _, fun a b c h1 h2 => textLe_trans _ _ _ h1 h2⟩
  · exact ⟨fun a b => Float64.sqlLe_total _ _,
      fun a b c h1 h2 => Float64.sqlLe_trans _ _ _ h1 h2⟩

theorem sorted_of_total_trans (le : Transaction → Transaction → Bool)
    (htot : ∀ a b, le a b = true ∨ le b a = true)
    (htr : ∀ a b c, le a b = true → le b c = true → le a c = true)
    (rows : List Transaction) :
    (rows.insertionSort (fun a b => le a b = true)).Pairwise (fun a b => le a b = true) := by
  haveI : IsTotal Transaction (fun a b => le a b = true) := ⟨htot⟩
  haveI : IsTrans Transaction (fun a b => le a b = true) := ⟨htr⟩
  exact List.sorted_insertionSort (fun a b => le a b = true) rows

/-- C17. For `id > 0` and a sort text that is empty or names a column of the ledger (the
allow-list timestamp, amount, kind included), with `le` the order of that column:
`GetHistory` returns `sorted` without its first `offset` rows, cut after `limit` rows, where
`sorted` is a rearrangement of the rows the account owns and is in the order `le`, ascending,
or descending when the lower-cased flag is `true`. Every returned row is a ledger row of
that account, at most `limit` rows are returned, the store is returned as it was, and a
second call gives the same answer. With no sort text `le` compares the timestamps, with
`amount` the amounts, with `type` the kinds. -/
theorem getHistory_page (pg : Postgres) (id : Int) (limit offset : Nat)
    (sort isDecreasingValue : String) (le : Transaction → Transaction → Bool) (hid : 0 < id)
    (hcol : repo.orderBy (if sort = "" then "trans_dt" else sort) = some le) :
    (∃ sorted : List Transaction,
        service.GetHistory pg id limit offset sort isDecreasingValue =
            (.ok ((sorted.drop offset).take limit), pg)
          ∧ sorted.Perm (ownedBy pg id)
          ∧ (strings.ToLower isDecreasingValue = "true" →
              sorted.Pairwise (fun a b => le b a = true))
          ∧ (strings.ToLower isDecreasingValue ≠ "true" →
              sorted.Pairwise (fun a b => le a b = true))
          ∧ (∀ t ∈ (sorted.drop offset).take limit, t ∈ pg.fct_transcation ∧ t.AccountId = id)
          ∧ ((sorted.drop offset).take limit).length ≤ limit)
      ∧ service.GetHistory (service.GetHistory pg id limit offset sort isDecreasingValue).2
            id limit offset sort isDecreasingValue =
          service.GetHistory pg id limit offset sort isDecreasingValue
      ∧ (sort = "" → ∀ a b, le a b = decide (a.TransDt ≤ b.TransDt))
      ∧ (sort = "amount" → ∀ a b, le a b = Float64.sqlLe a.Amount b.Amount)
      ∧ (sort = "type" → ∀ a b, le a b = textLe a.Type_.data b.Type_.data) := by
  have hv := idValidation_of_pos id hid
  obtain ⟨htot, htr⟩ := orderBy_total_trans _ le hcol
  have hres : service.GetHistory pg id limit offset sort isDecreasingValue =
      (.ok (((if decide (strings.ToLower isDecreasingValue = "true") = true then
              (ownedBy pg id).insertionSort (fun a b => le b a = true)
            else (ownedBy pg id).insertionSort (fun a b => le a b = true)).drop offset).take
          limit), pg) := by
    simp only [service, usecase.New, usecase.AccountUseCase.GetHistory, hv, postgresRepo,
      repo.AccountRepo.GetHistory, hcol, ownedBy]
  refine ⟨?_, ?_, ?_, ?_, ?_⟩
  · refine ⟨_, hres, ?_, ?_, ?_, ?_, ?_⟩
    · split_ifs
      · exact List.perm_insertionSort _ _
      · exact List.perm_insertionSort _ _
    · intro hd
      rw [if_pos (by simpa using hd)]
      exact sorted_of_total_trans (fun a b => le b a) (fun a b => htot b a)
        (fun a b c h1 h2 => htr c b a h2 h1) _
    · intro hd
      rw [if_neg (by simpa using hd)]
      exact sorted_of_total_trans le htot htr _
    · intro t ht
      have h1 := List.mem_of_mem_drop (List.mem_of_mem_take ht)
      have h2 : t ∈ ownedBy pg id := by
        split_ifs at h1
        · exact (List.perm_insertionSort _ _).subset h1
        · exact (List.perm_insertionSort _ _).subset h1
      simpa [ownedBy] using h2
    · exact List.length_take_le _ _
  · have h2 : (service.GetHistory pg id limit offset sort isDecreasingValue).2 = pg := by
      rw [hres]
    rw [h2]
  · intro h
    subst h
    have : some le = some (fun a b => decide (a.TransDt ≤ b.TransDt)) := by
      rw [← hcol]; rfl
    intro a b
    rw [Option.some.inj this]
  · intro h
    subst h
    have : some le = some (fun a b => Float64.sqlLe a.Amount b.Amount) := by
      rw [← hcol]; rfl
    intro a b
    rw [Option.some.inj this]
  · intro h
    subst h
    have : some le = some (fun a b => textLe a.Type_.data b.Type_.data) := by
      rw [← hcol]; rfl
    intro a b
    rw [Option.some.inj this]

/-- Witness of C17: the history of account 1 of the sample store by amount, descending, and
by default. -/
theorem getHistory_page_witness :
    (0 : Int) < 1
      ∧ repo.orderBy (if "amount" = "" then "trans_dt" else "amount") =
          some (fun a b => Float64.sqlLe a.Amount b.Amount)
      ∧ service.GetHistory (service.GetHistory pgHist 1 5 0 "amount" "true").2 1 5 0 "amount"
            "true" = service.GetHistory pgHist 1 5 0 "amount" "true"
      ∧ (service.GetHistory pgHist 1 5 0 "amount" "true").1 =
          .ok [{ Id := 1, TransDt := 10, AccountId := 1, DocNum := -999, Type_ := "accrual",
                 Amount := .ofInt 35 },
               { Id := 5, TransDt := 13, AccountId := 1, DocNum := 2, Type_ := "accrual",
                 Amount := .ofInt 1 },
               { Id := 3, TransDt := 12, AccountId := 1, DocNum := -999, Type_ := "redeem",
                 Amount := .ofInt (-5) }]
      ∧ (service.GetHistory pgHist 1 5 0 "" "").1 =
          .ok [{ Id := 1, TransDt := 10, AccountId := 1, DocNum := -999, Type_ := "accrual",
                 Amount := .ofInt 35 },
               { Id := 3, TransDt := 12, AccountId := 1, DocNum := -999, Type_ := "redeem",
                 Amount := .ofInt (-5) },
               { Id := 5, TransDt := 13, AccountId := 1, DocNum := 2, Type_ := "accrual",
                 Amount := .ofInt 1 }] :=
  ⟨by decide, rfl,
    (getHistory_page pgHist 1 5 0 "amount" "true"
      (fun a b => Float64.sqlLe a.Amount b.Amount) (by decide) rfl).2.1,
    by rfl, by rfl⟩

/-- The store never refuses the name of a column of the ledger. -/
theorem orderByRefused_of_column (pg : Postgres) (sort : String) (isDecreasing : Bool)
    (h : (repo.orderBy sort).isSome = true) : repo.orderByRefused pg sort isDecreasing = false := by
  obtain ⟨le, hle⟩ := Option.isSome_iff_exists.mp h
  simp [repo.orderByRefused, hle]

/-- C18, counterexample. Account 1 of the sample store `pgTwo` exists and owns no ledger
row, and no account of the sample store `pgHist` has the identifier 56784, which owns no
ledger row either. Asked with the sort text `no_such_column`, the history of each is not
the empty sequence but an error: the store's refusal of the `ORDER BY` text, wrapped. -/
theorem getHistory_refused_sort_text_is_error :
    (∃ a ∈ pgTwo.account, a.Id = 1) ∧ ownedBy pgTwo 1 = []
      ∧ service.GetHistory pgTwo 1 5 0 "no_such_column" "" =
          (.error (.wrap "AccountUseCase - GetHistory - uc.repo.GetHistory"
            (.wrap "AccountRepo - GetHistory - pgxscan.Select"
              (.pg "column does not exist"))), pgTwo)
      ∧ isOk (service.GetHistory pgTwo 1 5 0 "no_such_column" "").1 = false
      ∧ (∀ a ∈ pgHist.account, a.Id ≠ 56784) ∧ ownedBy pgHist 56784 = []
      ∧ service.GetHistory pgHist 56784 5 0 "no_such_column" "" =
          (.error (.wrap "AccountUseCase - GetHistory - uc.repo.GetHistory"
            (.wrap "AccountRepo - GetHistory - pgxscan.Select"
              (.pg "column does not exist"))), pgHist)
      ∧ isOk (service.GetHistory pgHist 56784 5 0 "no_such_column" "").1 = false := by
  refine ⟨by simp [pgTwo], rfl, rfl, rfl, by simp [pgHist], rfl, rfl, rfl⟩

/-- C18, amended. For `id > 0`, every limit, offset and direction flag, and every sort text
that the store does not refuse in its `ORDER BY` (the empty text and the names of the
columns of the ledger are never refused): if the account owns no ledger row, or if no
account has that identifier (every ledger row being owned by an account, as the foreign key
has it), `GetHistory` returns the empty sequence and no error, and the store as it was. -/
theorem getHistory_empty (pg : Postgres) (id : Int) (limit offset : Nat)
    (sort isDecreasingValue : String) (hid : 0 < id)
    (hsort : repo.orderByRefused pg (if sort = "" then "trans_dt" else sort)
      (decide (strings.ToLower isDecreasingValue = "true")) = false)
    (hnone : (∀ t ∈ pg.fct_transcation, t.AccountId ≠ id)
      ∨ (ForeignKey pg ∧ ∀ a ∈ pg.account, a.Id ≠ id)) :
    service.GetHistory pg id limit offset sort isDecreasingValue = (.ok [], pg)
      ∧ isOk (service.GetHistory pg id limit offset sort isDecreasingValue).1 = true := by
  have hv := idValidation_of_pos id hid
  have hrows : ∀ t ∈ pg.fct_transcation, t.AccountId ≠ id := by
    rcases hnone with h | ⟨hfk, hacc⟩
    · exact h
    · intro t ht e
      obtain ⟨a, ha, hida⟩ := hfk t ht
      exact hacc a ha (hida.trans e)
  have hown : pg.fct_transcation.filter (fun t => decide (t.AccountId = id)) = [] := by
    rw [List.filter_eq_nil_iff]
    intro t ht
    simpa using hrows t ht
  have h : service.GetHistory pg id limit offset sort isDecreasingValue = (.ok [], pg) := by
    simp only [service, usecase.New, usecase.AccountUseCase.GetHistory, hv, postgresRepo,
      repo.AccountRepo.GetHistory, hown]
    simp only [repo.orderByRefused] at hsort
    cases hle : repo.orderBy (if sort = "" then "trans_dt" else sort) with
    | some le => simp
    | none =>
      rw [hle] at hsort
      simp only [] at hsort ⊢
      cases hoth : pg.orderByOther (repo.orderByPred (if sort = "" then "trans_dt" else sort)
          (decide (strings.ToLower isDecreasingValue = "true"))) with
      | error msg => rw [hoth] at hsort; simp at hsort
      | ok le => simp
  exact ⟨h, by rw [h]; rfl⟩

/-- Witness of C18, amended: the identifier 56784, which no account of the sample store
has, with no sort text. -/
theorem getHistory_empty_witness :
    (0 : Int) < 56784
      ∧ repo.orderByRefused pgHist (if "" = "" then "trans_dt" else "")
          (decide (strings.ToLower "" = "true")) = false
      ∧ (ForeignKey pgHist ∧ ∀ a ∈ pgHist.account, a.Id ≠ 56784)
      ∧ service.GetHistory pgHist 56784 5 0 "" "" = (.ok [], pgHist) :=
  have hfk : ForeignKey pgHist ∧ ∀ a ∈ pgHist.account, a.Id ≠ 56784 := by
    constructor
    · simp [ForeignKey, pgHist]
    · simp [pgHist]
  ⟨by decide, rfl, hfk,
    (getHistory_empty pgHist 56784 5 0 "" "" (by decide) rfl (Or.inr hfk)).1⟩
